import Mathlib

/-!
Shallow embedding of the Grimoire game-rules engine
(`internal/engine/{state,catalog,actions,combat,xp}.go` and the inventory
helpers) and proofs about it.

Modelling conventions:
* Go `int` is `Int`; the engine never relies on machine-width overflow.
* The injected RNG capability is modelled as a scripted pair of streams
  (`Rng`), able to replay any compliant implementation: `Intn(n)` consumes
  the next integer reduced into `[0, n)`, `Float64()` consumes the next
  unit-interval value.  A bound `n ≤ 0` passed to `Intn` is a runtime panic
  of `math/rand.Intn` (the production adapter `adapters/rng_math.go`) and is
  modelled as a `fault` outcome.
* Go's `float64` unit-interval values are modelled as rationals (`ℚ`); the
  engine only ever compares them against loot-drop chances.
* The inventory map `map[string]int` is modelled extensionally as a function
  `String → Int`; a key that is absent reads as count 0, exactly as a Go map
  read does, and deleting a key stores 0.
* `strings.ToLower` is modelled on ASCII by `Char.toLower`, and
  `strings.Fields` splits on ASCII whitespace; the item ids the engine uses
  are ASCII.
* Combat's unbounded `for` loop is embedded with an explicit fuel parameter;
  `diverge` marks fuel exhaustion (the loop still running), never a result
  the Go code produces.
-/

set_option maxHeartbeats 1600000

namespace Grimoire

/-- Scripted randomness capability, replaying the `RNG` port
(`Intn : [0,n)`, `Float64 : [0,1)`). -/
structure Rng where
  ints : List Int
  floats : List ℚ
deriving DecidableEq, Repr

/-- One `Intn(n)` draw. `math/rand.Intn` panics when `n ≤ 0`, modelled as
`none`; otherwise the next scripted value is reduced into `[0, n)` (an
exhausted stream draws 0, mirroring the repository's scripted test RNG). -/
def Rng.intn (r : Rng) (n : Int) : Option (Int × Rng) :=
  if n ≤ 0 then none
  else
    match r.ints with
    | [] => some (0, r)
    | v :: rest => some ((if v < 0 then -v else v) % n, { r with ints := rest })

/-- One `Float64()` draw: the next scripted value clamped into the unit
interval (mirroring the repository's scripted test RNG). -/
def Rng.float64 (r : Rng) : ℚ × Rng :=
  match r.floats with
  | [] => (0, r)
  | v :: rest =>
    ((if v < 0 then 0 else if 1 < v then 1 else v), { r with floats := rest })

/-- The closed set of engine events (`events.go`). -/
inductive Event where
  | EncounterStarted (enemyID : String)
  | DamageDealt (source target : String) (amount hpLeft : Int)
  | EnemyDefeated (enemyID : String) (xp gold : Int)
  | PlayerDefeated
  | XPGained (amount : Int)
  | LevelUp (newLevel newMaxHP : Int)
  | ItemAdded (itemID : String) (count : Int)
  | ItemRemoved (itemID : String) (count : Int)
  | LootFound (items : List String)
  | GoldGained (amount : Int)
  | SPSpent (amount : Int)
  | HPRestored (amount : Int)
  | ExplorationResult (kind : String)
deriving DecidableEq, Repr

/-- `engine.Player` (`state.go`).  `Inventory` is the counter map keyed by
canonical item id, modelled extensionally. -/
structure Player where
  Name : String
  Class : String
  Gold : Int
  HP : Int
  MaxHP : Int
  SP : Int
  Level : Int
  XP : Int
  Inventory : String → Int

/-- `engine.Meta` (`state.go`). -/
structure Meta where
  Location : String
  QuestsCompleted : Int
  CommandCount : Int
deriving DecidableEq, Repr

/-- `engine.State` (`state.go`). -/
structure State where
  Player : Player
  Meta : Meta

/-- Constants of `state.go`. -/
def DefaultMaxHP : Int := 100

/-- Hunt base SP cost (`state.go`). -/
def HuntBaseSP : Int := 1

/-- Hunt maximal extra SP stake (`state.go`). -/
def HuntExtraSPMax : Int := 5

/-- HP restored per SP rested (`state.go`). -/
def RestHPPerSP : Int := 25

/-- `Player.IsAlive` (`state.go`). -/
def Player.IsAlive (p : Player) : Bool := p.HP > 0

/-- `Player.ClampHP` (`state.go`): floor HP at 0, then cap at MaxHP. -/
def Player.clampHP (p : Player) : Player :=
  let p := if p.HP < 0 then { p with HP := 0 } else p
  if p.HP > p.MaxHP then { p with HP := p.MaxHP } else p

/-- `engine.DefaultState` (`state.go`). -/
def DefaultState : State :=
  { Player :=
    { Name := "Traveller"
      Class := "Adventurer"
      Gold := 50
      HP := DefaultMaxHP
      MaxHP := DefaultMaxHP
      SP := 10
      Level := 1
      XP := 0
      Inventory := fun k => if k = "torch" then 1 else if k = "rusty_dagger" then 1 else 0 }
    Meta :=
    { Location := "Starting Village"
      QuestsCompleted := 0
      CommandCount := 0 } }

/-- ASCII model of the whitespace test of Go's `strings.Fields`. -/
def isSpaceChar (c : Char) : Bool :=
  c == ' ' || c == '\t' || c == '\n' || c == '\x0b' || c == '\x0c' || c == '\r'

/-- One character of `strings.ReplaceAll(s, "-", " ")`. -/
def replaceDash (c : Char) : Char := if c = '-' then ' ' else c

/-- Accumulator worker for the model of `strings.Fields`: split into maximal
runs of non-whitespace characters, dropping empty runs.  `acc` holds the
current run reversed. -/
def fieldsAux : List Char → List Char → List (List Char)
  | [], acc => if acc = [] then [] else [acc.reverse]
  | c :: cs, acc =>
    if isSpaceChar c then
      if acc = [] then fieldsAux cs [] else acc.reverse :: fieldsAux cs []
    else fieldsAux cs (c :: acc)

/-- Model of Go's `strings.Fields` on a character list. -/
def fieldsChars (cs : List Char) : List (List Char) := fieldsAux cs []

/-- Model of `strings.Join(parts, "_")` on character lists. -/
def joinUnderscore : List (List Char) → List Char
  | [] => []
  | [w] => w
  | w :: ws => w ++ '_' :: joinUnderscore ws

/-- `engine.NormalizeItemID` (inventory helpers):
`strings.Fields(strings.ToLower(strings.ReplaceAll(itemID, "-", " ")))`
joined with underscores; no fields yields the empty string. -/
def NormalizeItemID (itemID : String) : String :=
  let parts := fieldsChars ((itemID.toList.map replaceDash).map Char.toLower)
  if parts = [] then "" else String.mk (joinUnderscore parts)

/-- `engine.GetItemCount` (inventory helpers). -/
def GetItemCount (p : Player) (itemID : String) : Int :=
  p.Inventory (NormalizeItemID itemID)

/-- `engine.AddItem` (inventory helpers): `qty ≤ 0` or an id normalizing to
empty is a no-op; otherwise the canonical key is incremented. -/
def AddItem (p : Player) (itemID : String) (qty : Int) : Player :=
  if qty ≤ 0 then p
  else
    let itemID := NormalizeItemID itemID
    if itemID = "" then p
    else
      { p with Inventory := fun k => if k = itemID then p.Inventory k + qty else p.Inventory k }

/-- `engine.RemoveItem` (inventory helpers): decrements the canonical key;
when the held count is ≤ qty the key is deleted (reads back as 0). -/
def RemoveItem (p : Player) (itemID : String) (qty : Int) : Player :=
  if qty ≤ 0 then p
  else
    let itemID := NormalizeItemID itemID
    if itemID = "" then p
    else
      let hv := p.Inventory itemID
      if hv ≤ qty then
        { p with Inventory := fun k => if k = itemID then 0 else p.Inventory k }
      else
        { p with Inventory := fun k => if k = itemID then hv - qty else p.Inventory k }

/-- `engine.HasItem` (inventory helpers). -/
def HasItem (p : Player) (itemID : String) (qty : Int) : Bool :=
  if qty ≤ 0 then true
  else p.Inventory (NormalizeItemID itemID) ≥ qty

/-- `engine.XPToNext` (`xp.go`): linear curve `max(1, level) * 100`. -/
def XPToNext (level : Int) : Int :=
  (if level < 1 then 1 else level) * 100

/-- The level-up `for` loop of `engine.GrantXP` (`xp.go`): while XP meets the
threshold, consume it, raise Level and MaxHP by 10, heal 10 HP (clamped), and
emit one LevelUp event per iteration. -/
def levelLoop (p : Player) : Player × List Event :=
  let need := XPToNext p.Level
  if h : p.XP < need then (p, [])
  else
    let p1 := { p with XP := p.XP - need, Level := p.Level + 1, MaxHP := p.MaxHP + 10 }
    let p2 := Player.clampHP { p1 with HP := p1.HP + 10 }
    let (q, evs) := levelLoop p2
    (q, Event.LevelUp p2.Level p2.MaxHP :: evs)
termination_by p.XP.toNat
decreasing_by
  have h100 : 100 ≤ XPToNext p.Level := by
    unfold XPToNext
    split <;> omega
  simp only [not_lt] at h
  simp only [Player.clampHP]
  split <;> dsimp only <;> split <;> dsimp only <;> omega

/-- `engine.GrantXP` (`xp.go`): no-op on `amount ≤ 0`; otherwise add the XP,
emit XPGained, then run the level-up loop. -/
def GrantXP (state : State) (amount : Int) : State × List Event :=
  if amount ≤ 0 then (state, [])
  else
    let state := { state with Player := { state.Player with XP := state.Player.XP + amount } }
    let (p, evs) := levelLoop state.Player
    ({ state with Player := p }, Event.XPGained amount :: evs)

/-- `engine.Item` (`catalog.go`); omitted use-effect fields are Go zero
values. -/
structure Item where
  ID : String
  Name : String
  HPMin : Int := 0
  HPMax : Int := 0
  SPMin : Int := 0
  SPMax : Int := 0
deriving DecidableEq, Repr

/-- `engine.LootEntry` (`catalog.go`); the float64 drop chance is modelled as
a rational. -/
structure LootEntry where
  ItemID : String
  Chance : ℚ
deriving DecidableEq, Repr

/-- `engine.EnemyTemplate` (`catalog.go`). -/
structure EnemyTemplate where
  ID : String
  Name : String
  HP : Int
  AttackMin : Int
  AttackMax : Int
  XP : Int
  Gold : Int
  Loot : List LootEntry
deriving DecidableEq, Repr

/-- The `engine.Items` registry (`catalog.go`), as a keyed lookup (comma-ok
map access). -/
def Items (id : String) : Option Item :=
  if id = "healing_potion" then
    some { ID := "healing_potion", Name := "Healing Potion",
           HPMin := 10, HPMax := 25, SPMin := 1, SPMax := 3 }
  else if id = "torch" then some { ID := "torch", Name := "Torch" }
  else if id = "rusty_dagger" then some { ID := "rusty_dagger", Name := "Rusty Dagger" }
  else if id = "bone_shield" then some { ID := "bone_shield", Name := "Bone Shield" }
  else if id = "ancient_coin" then some { ID := "ancient_coin", Name := "Ancient Coin" }
  else if id = "coin_pouch" then some { ID := "coin_pouch", Name := "Coin Pouch" }
  else if id = "wolf_pelt" then some { ID := "wolf_pelt", Name := "Wolf Pelt" }
  else if id = "meat" then
    some { ID := "meat", Name := "Meat", HPMin := 40, HPMax := 40, SPMin := 2, SPMax := 2 }
  else if id = "bear_claw" then some { ID := "bear_claw", Name := "Bear Claw" }
  else if id = "orcish_blade" then some { ID := "orcish_blade", Name := "Orcish Blade" }
  else none

/-- The `engine.Enemies` registry (`catalog.go`), as a total function the way
a Go map index reads (an unknown key reads the zero template; the engine only
ever looks up the six pool ids). -/
def Enemies (id : String) : EnemyTemplate :=
  if id = "goblin" then
    { ID := "goblin", Name := "Goblin", HP := 8, AttackMin := 1, AttackMax := 3,
      XP := 5, Gold := 3,
      Loot := [{ ItemID := "rusty_dagger", Chance := mkRat 20 100 },
               { ItemID := "healing_potion", Chance := mkRat 10 100 }] }
  else if id = "skeleton" then
    { ID := "skeleton", Name := "Skeleton", HP := 10, AttackMin := 2, AttackMax := 4,
      XP := 8, Gold := 5,
      Loot := [{ ItemID := "bone_shield", Chance := mkRat 10 100 },
               { ItemID := "ancient_coin", Chance := mkRat 25 100 }] }
  else if id = "bandit" then
    { ID := "bandit", Name := "Bandit", HP := 12, AttackMin := 2, AttackMax := 5,
      XP := 10, Gold := 8,
      Loot := [{ ItemID := "coin_pouch", Chance := mkRat 30 100 },
               { ItemID := "healing_potion", Chance := mkRat 15 100 }] }
  else if id = "wolf" then
    { ID := "wolf", Name := "Wolf", HP := 14, AttackMin := 3, AttackMax := 6,
      XP := 12, Gold := 6,
      Loot := [{ ItemID := "wolf_pelt", Chance := mkRat 30 100 },
               { ItemID := "meat", Chance := mkRat 40 100 }] }
  else if id = "bear" then
    { ID := "bear", Name := "Bear", HP := 20, AttackMin := 4, AttackMax := 8,
      XP := 20, Gold := 10,
      Loot := [{ ItemID := "bear_claw", Chance := mkRat 25 100 }] }
  else if id = "orc" then
    { ID := "orc", Name := "Orc", HP := 25, AttackMin := 5, AttackMax := 10,
      XP := 25, Gold := 15,
      Loot := [{ ItemID := "orcish_blade", Chance := mkRat 15 100 },
               { ItemID := "coin_pouch", Chance := mkRat 25 100 }] }
  else
    { ID := "", Name := "", HP := 0, AttackMin := 0, AttackMax := 0,
      XP := 0, Gold := 0, Loot := [] }

/-- `engine.CombatResult` (`combat.go`); Go zero values stand for the fields
left unset on a loss. -/
structure CombatResult where
  Outcome : String
  XP : Int := 0
  Gold : Int := 0
  Loot : List String := []
deriving DecidableEq, Repr

/-- Exit of the embedded combat resolver. `fault` models a `math/rand.Intn`
panic on a non-positive bound; `diverge` is fuel exhaustion only. -/
inductive CombatRes where
  | out (result : CombatResult) (events : List Event) (state : State) (rng : Rng)
  | fault
  | diverge

/-- Result projection of a normal combat exit. -/
def CombatRes.resultOf : CombatRes → Option CombatResult
  | CombatRes.out r _ _ _ => some r
  | _ => none

/-- Event projection of a normal combat exit. -/
def CombatRes.eventsOf : CombatRes → Option (List Event)
  | CombatRes.out _ evs _ _ => some evs
  | _ => none

/-- State projection of a normal combat exit. -/
def CombatRes.stateOf : CombatRes → Option State
  | CombatRes.out _ _ st _ => some st
  | _ => none

/-- Whether the combat exit is the modelled `math/rand.Intn` panic. -/
def CombatRes.isFault : CombatRes → Bool
  | CombatRes.fault => true
  | _ => false

/-- The loot roll of the victory branch (`combat.go` lines 76–80): each entry
tested independently against `rng.Float64() < drop.Chance`, in order. -/
def rollLoot : List LootEntry → Rng → List String × Rng
  | [], rng => ([], rng)
  | drop :: rest, rng =>
    let (v, rng) := rng.float64
    let (tail, rng) := rollLoot rest rng
    if v < drop.Chance then (drop.ItemID :: tail, rng) else (tail, rng)

/-- The combat `for` loop of `engine.ResolveCombat` (`combat.go`), with
explicit fuel.  Player attacks first; working HPs are floored at 0; on a kill
the result carries template XP/Gold and the loot roll; the fallthrough after
the loop writes the working player HP back and reports a loss. -/
def combatLoop (state : State) (enemy : EnemyTemplate) (level : Int)
    (playerHP enemyHP : Int) (events : List Event) (rng : Rng) : Nat → CombatRes
  | 0 => CombatRes.diverge
  | fuel + 1 =>
    if playerHP > 0 ∧ enemyHP > 0 then
      let pMin := 1 + level
      let pMax := 2 + level
      match rng.intn (pMax - pMin + 1) with
      | none => CombatRes.fault
      | some (d, rng) =>
        let pDmg := pMin + d
        let enemyHP1 := enemyHP - pDmg
        let enemyHP1 := if enemyHP1 < 0 then 0 else enemyHP1
        let events := events ++ [Event.DamageDealt "player" enemy.ID pDmg enemyHP1]
        if enemyHP1 ≤ 0 then
          let (loot, rng) := rollLoot enemy.Loot rng
          let result : CombatResult :=
            { Outcome := "win", XP := enemy.XP, Gold := enemy.Gold, Loot := loot }
          CombatRes.out result (events ++ [Event.EnemyDefeated enemy.ID enemy.XP enemy.Gold])
            state rng
        else
          let eMin := enemy.AttackMin
          let eMax := enemy.AttackMax
          match rng.intn (eMax - eMin + 1) with
          | none => CombatRes.fault
          | some (d2, rng) =>
            let eDmg := eMin + d2
            let playerHP1 := playerHP - eDmg
            let playerHP1 := if playerHP1 < 0 then 0 else playerHP1
            let events := events ++ [Event.DamageDealt enemy.ID "player" eDmg playerHP1]
            if playerHP1 ≤ 0 then
              let state := { state with Player := { state.Player with HP := 0 } }
              CombatRes.out { Outcome := "lose" } (events ++ [Event.PlayerDefeated]) state rng
            else
              combatLoop state enemy level playerHP1 enemyHP1 events rng fuel
    else
      let state := { state with Player := { state.Player with HP := playerHP } }
      CombatRes.out { Outcome := "lose" } events state rng

/-- `engine.ResolveCombat` (`combat.go`): emit EncounterStarted, then run the
turn loop on working copies of the player's HP and the template HP. -/
def ResolveCombat (state : State) (enemy : EnemyTemplate) (rng : Rng) (fuel : Nat) : CombatRes :=
  combatLoop state enemy state.Player.Level state.Player.HP enemy.HP
    [Event.EncounterStarted enemy.ID] rng fuel

/-- The cumulative-weight walk of `engine.ChooseEnemy` (`actions.go`): first
pool entry whose running sum exceeds the roll. -/
def cumPick : List String → List Int → Int → Int → Option String
  | p :: ps, w :: ws, roll, cum =>
    let cum := cum + w
    if roll < cum then some p else cumPick ps ws roll cum
  | _, _, _, _ => none

/-- `engine.ChooseEnemy` (`actions.go`): weighted selection over the fixed
pool, with the level-3 rebalance and the extra-SP bias, falling back to the
first pool entry when the walk matches nothing. -/
def ChooseEnemy (state : State) (extraSP : Int) (rng : Rng) : Option (String × Rng) :=
  let pool := ["goblin", "skeleton", "bandit", "wolf", "bear", "orc"]
  let weights : List Int := [25, 20, 15, 10, 5, 2]
  let weights :=
    if state.Player.Level ≥ 3 then
      let w := weights.map (fun x => max 5 (x - 5))
      w.set 2 (w.getD 2 0 + 5)
    else weights
  let weights :=
    if extraSP > 0 then
      let w := weights.set 0 (max 0 (weights.getD 0 0 - extraSP * 8))
      w.set (w.length - 1) (w.getD (w.length - 1) 0 + extraSP * 8)
    else weights
  let total := weights.foldl (· + ·) 0
  match rng.intn total with
  | none => none
  | some (roll, rng) =>
    match cumPick pool weights roll 0 with
    | some p => some (p, rng)
    | none => some (pool.headD "", rng)

/-- Exit of an embedded action handler: the mutated state, the advanced RNG,
the ordered event list, and the optional error, or a propagated RNG fault /
fuel exhaustion. -/
inductive RunRes where
  | ok (state : State) (rng : Rng) (events : List Event) (err : Option String)
  | fault
  | diverge

/-- State projection of a normal handler exit. -/
def RunRes.stateOf : RunRes → Option State
  | RunRes.ok st _ _ _ => some st
  | _ => none

/-- Event projection of a normal handler exit. -/
def RunRes.eventsOf : RunRes → Option (List Event)
  | RunRes.ok _ _ evs _ => some evs
  | _ => none

/-- Error projection of a normal handler exit. -/
def RunRes.errOf : RunRes → Option (Option String)
  | RunRes.ok _ _ _ e => some e
  | _ => none

/-- The loot-application loop shared by Explore and Hunt (`actions.go`):
AddItem and one ItemAdded event per drop, in order. -/
def applyLoot : Player → List String → Player × List Event
  | p, [] => (p, [])
  | p, it :: rest =>
    let p := AddItem p it 1
    let (q, evs) := applyLoot p rest
    (q, Event.ItemAdded it 1 :: evs)

/-- Reward scaling of Hunt (`actions.go`):
`int(float64(base) * (1.0 + 0.25*float64(extraSP)))`.  The product is exact
in float64 for the engine's range (denominator 4), and Go's int conversion
truncates toward zero, which is Lean's `Int` division here. -/
def multReward (base extraSP : Int) : Int :=
  base * (4 + extraSP) / 4

/-- `engine.Explore` (`actions.go`). -/
def Explore (state : State) (rng : Rng) (fuel : Nat) : RunRes :=
  if ¬ state.Player.IsAlive then
    RunRes.ok state rng [] (some "player is down (HP 0)")
  else
    let state :=
      { state with Meta := { state.Meta with CommandCount := state.Meta.CommandCount + 1 } }
    match rng.intn 100 with
    | none => RunRes.fault
    | some (r, rng) =>
      let roll := r + 1
      if roll ≤ 2 then
        match rng.intn 401 with
        | none => RunRes.fault
        | some (g, rng) =>
          let gold := 100 + g
          let state :=
            { state with Player := { state.Player with Gold := state.Player.Gold + gold } }
          let events := [Event.ExplorationResult "treasure", Event.GoldGained gold]
          let items := ["healing_potion", "rusty_dagger", "torch"]
          match rng.intn 3 with
          | none => RunRes.fault
          | some (i, rng) =>
            let item := items.getD i.toNat ""
            let state := { state with Player := AddItem state.Player item 1 }
            RunRes.ok state rng (events ++ [Event.ItemAdded item 1]) none
      else if roll ≤ 10 then
        let items := ["healing_potion", "torch"]
        match rng.intn 2 with
        | none => RunRes.fault
        | some (i, rng) =>
          let item := items.getD i.toNat ""
          let state := { state with Player := AddItem state.Player item 1 }
          RunRes.ok state rng [Event.ExplorationResult "item", Event.ItemAdded item 1] none
      else if roll ≤ 30 then
        match rng.intn 46 with
        | none => RunRes.fault
        | some (g, rng) =>
          let gold := 5 + g
          let state :=
            { state with Player := { state.Player with Gold := state.Player.Gold + gold } }
          RunRes.ok state rng [Event.ExplorationResult "gold", Event.GoldGained gold] none
      else if roll ≤ 50 then
        match ChooseEnemy state 0 rng with
        | none => RunRes.fault
        | some (enemyID, rng) =>
          let enemy := Enemies enemyID
          match ResolveCombat state enemy rng fuel with
          | CombatRes.fault => RunRes.fault
          | CombatRes.diverge => RunRes.diverge
          | CombatRes.out result combatEvents state rng =>
            let events := combatEvents
            let state :=
              { state with Player := { state.Player with HP := max state.Player.HP 0 } }
            if result.Outcome = "win" then
              let (state, xpEvents) := GrantXP state result.XP
              let events := events ++ xpEvents
              let state :=
                { state with Player :=
                  { state.Player with Gold := state.Player.Gold + result.Gold } }
              let events := events ++ [Event.GoldGained result.Gold]
              let (p, lootEvents) := applyLoot state.Player result.Loot
              RunRes.ok { state with Player := p } rng (events ++ lootEvents) none
            else
              RunRes.ok state rng events none
      else
        RunRes.ok state rng [Event.ExplorationResult "nothing"] none

/-- `engine.Hunt` (`actions.go`). -/
def Hunt (state : State) (extraSP : Int) (rng : Rng) (fuel : Nat) : RunRes :=
  if ¬ state.Player.IsAlive then
    RunRes.ok state rng [] (some "player is down (HP 0)")
  else
    let extraSP := if extraSP < 0 then 0 else extraSP
    let extraSP := if extraSP > HuntExtraSPMax then HuntExtraSPMax else extraSP
    let cost := HuntBaseSP + extraSP
    if state.Player.SP < cost then
      RunRes.ok state rng [] (some "not enough SP")
    else
      let state := { state with Player := { state.Player with SP := state.Player.SP - cost } }
      let state :=
        { state with Meta := { state.Meta with CommandCount := state.Meta.CommandCount + 1 } }
      let events := [Event.SPSpent cost]
      match ChooseEnemy state extraSP rng with
      | none => RunRes.fault
      | some (enemyID, rng) =>
        let enemy := Enemies enemyID
        match ResolveCombat state enemy rng fuel with
        | CombatRes.fault => RunRes.fault
        | CombatRes.diverge => RunRes.diverge
        | CombatRes.out result combatEvents state rng =>
          let events := events ++ combatEvents
          if result.Outcome = "win" then
            let xp := multReward result.XP extraSP
            let gold := multReward result.Gold extraSP
            let (state, xpEvents) := GrantXP state xp
            let events := events ++ xpEvents
            let state :=
              { state with Player := { state.Player with Gold := state.Player.Gold + gold } }
            let events := events ++ [Event.GoldGained gold]
            let (p, lootEvents) := applyLoot state.Player result.Loot
            let state := { state with Player := p }
            let events := events ++ lootEvents
            if state.Player.HP = 0 then
              let state := { state with Player := { state.Player with HP := 1 } }
              RunRes.ok state rng (events ++ [Event.HPRestored 1]) none
            else
              RunRes.ok state rng events none
          else
            RunRes.ok state rng events none

/-- `engine.Rest` (`actions.go`): validate, spend SP, restore clamped HP. -/
def Rest (state : State) (sp : Int) : State × List Event × Option String :=
  if sp ≤ 0 then (state, [], some "invalid SP amount")
  else if state.Player.SP < sp then (state, [], some "not enough SP")
  else
    let state := { state with Player := { state.Player with SP := state.Player.SP - sp } }
    let events := [Event.SPSpent sp]
    let hpGain := sp * RestHPPerSP
    let state :=
      { state with Player :=
        Player.clampHP { state.Player with HP := state.Player.HP + hpGain } }
    (state, events ++ [Event.HPRestored hpGain], none)

/-- `engine.UseItem` (`actions.go`): normalize, validate ownership and
catalog membership, then apply the healing-potion branch or report that the
item has no use effect. -/
def UseItem (state : State) (itemID : String) (rng : Rng) : RunRes :=
  let itemID := NormalizeItemID itemID
  if itemID = "" then RunRes.ok state rng [] (some "invalid item id")
  else if ¬ HasItem state.Player itemID 1 then
    RunRes.ok state rng [] (some "item not in inventory")
  else
    match Items itemID with
    | none => RunRes.ok state rng [] (some "unknown item")
    | some item =>
      if itemID = "healing_potion" then
        match rng.intn (item.HPMax - item.HPMin + 1) with
        | none => RunRes.fault
        | some (d1, rng) =>
          match rng.intn (item.SPMax - item.SPMin + 1) with
          | none => RunRes.fault
          | some (d2, rng) =>
            let hpGain := item.HPMin + d1
            let spGain := item.SPMin + d2
            let p :=
              { state.Player with HP := state.Player.HP + hpGain,
                                  SP := state.Player.SP + spGain }
            let p := Player.clampHP p
            let p := RemoveItem p itemID 1
            RunRes.ok { state with Player := p } rng
              [Event.ItemRemoved itemID 1, Event.HPRestored hpGain] none
      else
        RunRes.ok state rng [] (some "item has no use effect")

/-- The state invariant of §3 of the spec: HP and SP never negative, HP never
above MaxHP, XP never negative, Level at least 1, all stored inventory counts
strictly positive, and every stored inventory key canonical (a fixed point of
`NormalizeItemID`, so no two case/separator variants coexist). -/
@[reducible] def InvPlayer (p : Player) : Prop :=
  0 ≤ p.HP ∧ p.HP ≤ p.MaxHP ∧ 0 ≤ p.SP ∧ 0 ≤ p.XP ∧ 1 ≤ p.Level ∧
  (∀ k, 0 ≤ p.Inventory k) ∧ (∀ k, p.Inventory k ≠ 0 → NormalizeItemID k = k)

/-- The state invariant lifted to the root state. -/
@[reducible] def Inv (st : State) : Prop := InvPlayer st.Player

/-- A malformed enemy template (`AttackMax < AttackMin`), the shape the spec
says `ResolveCombat` clamps.  Its HP is high enough that the first player
strike cannot kill it. -/
def malformedTemplate : EnemyTemplate :=
  { ID := "imp", Name := "Imp", HP := 100, AttackMin := 5, AttackMax := 3,
    XP := 1, Gold := 1, Loot := [] }

/-- Sequential application of `GrantXP` over a list of amounts (states only;
events are disregarded). -/
def grantSeq (st : State) (parts : List Int) : State :=
  parts.foldl (fun s a => (GrantXP s a).1) st

/-- The default state with the player at 1 HP: one enemy hit defeats them. -/
def loseState : State :=
  { DefaultState with Player := { DefaultState.Player with HP := 1 } }

/-!  Theorems: helper lemmas, then one theorem per claim.  -/

theorem intn_pos (r : Rng) {n : Int} (h : 0 < n) :
    ∃ d r2, r.intn n = some (d, r2) ∧ 0 ≤ d ∧ d < n := by
  obtain ⟨ints, floats⟩ := r
  unfold Rng.intn
  rw [if_neg (by omega)]
  cases ints with
  | nil => exact ⟨0, ⟨[], floats⟩, rfl, le_refl 0, h⟩
  | cons v rest =>
    refine ⟨(if v < 0 then -v else v) % n, ⟨rest, floats⟩, rfl, ?_, ?_⟩
    · exact Int.emod_nonneg _ (by omega)
    · exact Int.emod_lt_of_pos _ h

/-- Termination of the combat loop for well-formed templates: with a
non-negative player level (player damage at least 1 each round) the enemy's
working HP strictly decreases every round, so fuel beyond the template HP
always suffices and the loop exits with a win or a lose. -/
theorem combatLoop_term :
    ∀ (fuel : Nat) (st : State) (e : EnemyTemplate) (level pHP eHP : Int)
      (evs : List Event) (rng : Rng),
      0 ≤ level → 0 < e.AttackMin → e.AttackMin ≤ e.AttackMax → eHP.toNat < fuel →
      ∃ r evs2 st2 rng2,
        combatLoop st e level pHP eHP evs rng fuel = CombatRes.out r evs2 st2 rng2 ∧
        (r.Outcome = "win" ∨ r.Outcome = "lose")
  | 0, st, e, level, pHP, eHP, evs, rng => by
    intro _ _ _ hf
    omega
  | fuel + 1, st, e, level, pHP, eHP, evs, rng => by
    intro hlev hmin hwf hf
    rw [combatLoop]
    by_cases hcond : pHP > 0 ∧ eHP > 0
    · rw [if_pos hcond]
      dsimp only
      obtain ⟨d, rng1, hd, hd0, hdlt⟩ :=
        intn_pos rng (show (0:Int) < 2 + level - (1 + level) + 1 by omega)
      rw [hd]
      dsimp only
      by_cases hwin : (if eHP - (1 + level + d) < 0 then 0 else eHP - (1 + level + d)) ≤ 0
      · rw [if_pos hwin]
        rcases hrl : rollLoot e.Loot rng1 with ⟨loot, rng2⟩
        exact ⟨_, _, _, _, rfl, Or.inl rfl⟩
      · rw [if_neg hwin]
        obtain ⟨d2, rng2, hd2, hd20, hd2lt⟩ :=
          intn_pos rng1 (show (0:Int) < e.AttackMax - e.AttackMin + 1 by omega)
        rw [hd2]
        dsimp only
        by_cases hlose :
            (if pHP - (e.AttackMin + d2) < 0 then 0 else pHP - (e.AttackMin + d2)) ≤ 0
        · rw [if_pos hlose]
          exact ⟨_, _, _, _, rfl, Or.inr rfl⟩
        · rw [if_neg hlose]
          have hE : ¬ (eHP - (1 + level + d) < 0) := by
            by_contra hE
            rw [if_pos hE] at hwin
            omega
          have hP : ¬ (pHP - (e.AttackMin + d2) < 0) := by
            by_contra hP
            rw [if_pos hP] at hlose
            omega
          rw [if_neg hE] at hwin ⊢
          rw [if_neg hP] at hlose ⊢
          exact combatLoop_term fuel st e level _ _ _ rng2 hlev hmin hwf (by omega)
    · rw [if_neg hcond]
      exact ⟨_, _, _, _, rfl, Or.inr rfl⟩

/-- Shape of every normal combat exit: a win leaves the persistent state
untouched, a loss inside the loop zeroes the persistent HP and has emitted
PlayerDefeated, and the only other exit is the entry fallthrough (loop
condition false at entry), which writes the entry working HP back. -/
theorem combatLoop_out_shape :
    ∀ (fuel : Nat) (st : State) (e : EnemyTemplate) (level pHP eHP : Int)
      (evs : List Event) (rng : Rng) (r : CombatResult) (evs2 : List Event)
      (st2 : State) (rng2 : Rng),
      combatLoop st e level pHP eHP evs rng fuel = CombatRes.out r evs2 st2 rng2 →
      (r.Outcome = "win" ∧ st2 = st) ∨
      (r.Outcome = "lose" ∧ st2 = { st with Player := { st.Player with HP := 0 } } ∧
        Event.PlayerDefeated ∈ evs2) ∨
      (r.Outcome = "lose" ∧ st2 = { st with Player := { st.Player with HP := pHP } } ∧
        ¬ (pHP > 0 ∧ eHP > 0) ∧ evs2 = evs)
  | 0, st, e, level, pHP, eHP, evs, rng, r, evs2, st2, rng2 => by
    intro h
    exact absurd h (by rw [combatLoop]; intro h; cases h)
  | fuel + 1, st, e, level, pHP, eHP, evs, rng, r, evs2, st2, rng2 => by
    intro h
    rw [combatLoop] at h
    by_cases hcond : pHP > 0 ∧ eHP > 0
    · rw [if_pos hcond] at h
      dsimp only at h
      rcases hi : rng.intn (2 + level - (1 + level) + 1) with _ | ⟨d, rng1⟩
      · rw [hi] at h
        cases h
      · rw [hi] at h
        dsimp only at h
        by_cases hwin : (if eHP - (1 + level + d) < 0 then 0 else eHP - (1 + level + d)) ≤ 0
        · rw [if_pos hwin] at h
          rcases hrl : rollLoot e.Loot rng1 with ⟨loot, rngl⟩
          rw [hrl] at h
          dsimp only at h
          cases h
          exact Or.inl ⟨rfl, rfl⟩
        · rw [if_neg hwin] at h
          rcases hi2 : rng1.intn (e.AttackMax - e.AttackMin + 1) with _ | ⟨d2, rngB⟩
          · rw [hi2] at h
            cases h
          · rw [hi2] at h
            dsimp only at h
            by_cases hlose :
                (if pHP - (e.AttackMin + d2) < 0 then 0 else pHP - (e.AttackMin + d2)) ≤ 0
            · rw [if_pos hlose] at h
              cases h
              exact Or.inr (Or.inl ⟨rfl, rfl, by simp⟩)
            · rw [if_neg hlose] at h
              rcases combatLoop_out_shape fuel st e level _ _ _ rngB r evs2 st2 rng2 h with
                hc | hc | hc
              · exact Or.inl hc
              · exact Or.inr (Or.inl hc)
              · exact absurd ⟨by omega, by omega⟩ hc.2.2.1
    · rw [if_neg hcond] at h
      cases h
      exact Or.inr (Or.inr ⟨rfl, rfl, hcond, rfl⟩)

theorem charToNat_ofNat_valid {n : Nat} (h : n.isValidChar) : (Char.ofNat n).toNat = n := by
  simp [Char.ofNat, h, Char.ofNatAux, Char.toNat, UInt32.toNat]

theorem toLower_toNat (c : Char) (h : 65 ≤ c.toNat ∧ c.toNat ≤ 90) :
    (Char.toLower c).toNat = c.toNat + 32 := by
  have hv : (c.toNat + 32).isValidChar := by
    left
    omega
  simp [Char.toLower, h.1, h.2, charToNat_ofNat_valid hv]

theorem toLower_eq_self {d : Char} (h : ¬ (65 ≤ d.toNat ∧ d.toNat ≤ 90)) :
    Char.toLower d = d := by
  simp only [Char.toLower, ge_iff_le]
  rw [if_neg h]

theorem toLower_idem (c : Char) : Char.toLower (Char.toLower c) = Char.toLower c := by
  by_cases h : 65 ≤ c.toNat ∧ c.toNat ≤ 90
  · have h1 := toLower_toNat c h
    apply toLower_eq_self
    rw [h1]
    omega
  · rw [toLower_eq_self h]
    exact toLower_eq_self h

theorem replaceDash_ne_dash (d : Char) : replaceDash d ≠ '-' := by
  unfold replaceDash
  split
  · decide
  · assumption

theorem toLower_ne_dash {x : Char} (h : x ≠ '-') : Char.toLower x ≠ '-' := by
  by_cases hu : 65 ≤ x.toNat ∧ x.toNat ≤ 90
  · intro hc
    have := toLower_toNat x hu
    rw [hc] at this
    have hd : ('-').toNat = 45 := by decide
    omega
  · rw [toLower_eq_self hu]
    exact h

theorem toLower_nonspace {x : Char} (h : isSpaceChar x = false) :
    isSpaceChar (Char.toLower x) = false := by
  by_cases hu : 65 ≤ x.toNat ∧ x.toNat ≤ 90
  · have h1 := toLower_toNat x hu
    have hsp : (' ').toNat = 32 := rfl
    have hst : ('\t').toNat = 9 := rfl
    have hsn : ('\n').toNat = 10 := rfl
    have hsb : ('\x0b').toNat = 11 := rfl
    have hsc : ('\x0c').toNat = 12 := rfl
    have hsr : ('\r').toNat = 13 := rfl
    unfold isSpaceChar
    simp only [Bool.or_eq_false_iff, beq_eq_false_iff_ne]
    and_intros <;>
      · intro hc
        have h2 := congrArg Char.toNat hc
        rw [h1] at h2
        simp only [hsp, hst, hsn, hsb, hsc, hsr] at h2
        omega
  · rw [toLower_eq_self hu]
    exact h

/-- Soundness of the `strings.Fields` model: every produced word is nonempty
and consists of non-whitespace characters drawn from the accumulator or the
input. -/
theorem fieldsAux_sound :
    ∀ (cs : List Char) (acc : List Char),
      (∀ c ∈ acc, isSpaceChar c = false) →
      ∀ w ∈ fieldsAux cs acc, w ≠ [] ∧ ∀ c ∈ w, isSpaceChar c = false ∧ (c ∈ acc ∨ c ∈ cs)
  | [], acc => by
    intro hacc w hw
    unfold fieldsAux at hw
    split at hw
    · simp at hw
    · simp only [List.mem_singleton] at hw
      subst hw
      constructor
      · simpa using fun h => by simp_all
      · intro c hc
        rw [List.mem_reverse] at hc
        exact ⟨hacc c hc, Or.inl hc⟩
  | c :: cs, acc => by
    intro hacc w hw
    unfold fieldsAux at hw
    split at hw
    · split at hw
      · have := fieldsAux_sound cs [] (by simp) w hw
        exact ⟨this.1, fun x hx => ⟨(this.2 x hx).1, by
          rcases (this.2 x hx).2 with h | h
          · simp at h
          · exact Or.inr (by simp [h])⟩⟩
      · rcases List.mem_cons.mp hw with h | h
        · subst h
          refine ⟨by simpa using fun h => by simp_all, fun x hx => ?_⟩
          rw [List.mem_reverse] at hx
          exact ⟨hacc x hx, Or.inl hx⟩
        · have := fieldsAux_sound cs [] (by simp) w h
          exact ⟨this.1, fun x hx => ⟨(this.2 x hx).1, by
            rcases (this.2 x hx).2 with h | h
            · simp at h
            · exact Or.inr (by simp [h])⟩⟩
    · rename_i hns
      have hacc2 : ∀ x ∈ c :: acc, isSpaceChar x = false := by
        intro x hx
        rcases List.mem_cons.mp hx with h | h
        · subst h
          simpa using hns
        · exact hacc x h
      have := fieldsAux_sound cs (c :: acc) hacc2 w hw
      refine ⟨this.1, fun x hx => ⟨(this.2 x hx).1, ?_⟩⟩
      rcases (this.2 x hx).2 with h | h
      · rcases List.mem_cons.mp h with h | h
        · exact Or.inr (by simp [h])
        · exact Or.inl h
      · exact Or.inr (by simp [h])

/-- On whitespace-free input the `strings.Fields` model yields the single run
`acc.reverse ++ cs`. -/
theorem fieldsAux_nonspace :
    ∀ (cs : List Char) (acc : List Char),
      (∀ c ∈ cs, isSpaceChar c = false) → (acc ≠ [] ∨ cs ≠ []) →
      fieldsAux cs acc = [acc.reverse ++ cs]
  | [], acc => by
    intro _ hne
    unfold fieldsAux
    rcases hne with h | h
    · rw [if_neg h, List.append_nil]
    · simp at h
  | c :: cs, acc => by
    intro hcs _
    unfold fieldsAux
    have hc : isSpaceChar c = false := hcs c (by simp)
    rw [if_neg (by simp [hc])]
    have := fieldsAux_nonspace cs (c :: acc) (fun x hx => hcs x (by simp [hx]))
      (Or.inl (by simp))
    rw [this, List.reverse_cons, List.append_assoc]
    rfl

theorem mem_joinUnderscore :
    ∀ (ws : List (List Char)) (c : Char), c ∈ joinUnderscore ws →
      c = '_' ∨ ∃ w ∈ ws, c ∈ w
  | [], c => by
    intro h
    simp [joinUnderscore] at h
  | [w], c => by
    intro h
    simp only [joinUnderscore] at h
    exact Or.inr ⟨w, by simp, h⟩
  | w :: w2 :: ws, c => by
    intro h
    simp only [joinUnderscore, List.mem_append, List.mem_cons] at h
    rcases h with h | h | h
    · exact Or.inr ⟨w, by simp, h⟩
    · exact Or.inl h
    · rcases mem_joinUnderscore (w2 :: ws) c h with h | ⟨w3, hw3, hc⟩
      · exact Or.inl h
      · exact Or.inr ⟨w3, by simp [List.mem_cons.mp hw3], hc⟩

theorem joinUnderscore_ne_nil :
    ∀ (w : List Char) (ws : List (List Char)), w ≠ [] → joinUnderscore (w :: ws) ≠ []
  | w, [] => by
    intro h
    simpa [joinUnderscore] using h
  | w, w2 :: ws => by
    intro h
    simp [joinUnderscore, h]

theorem map_fixed {l : List Char} {f : Char → Char} (h : ∀ c ∈ l, f c = c) :
    l.map f = l := by
  induction l with
  | nil => rfl
  | cons c cs ih =>
    simp only [List.map_cons, h c (by simp)]
    rw [ih fun x hx => h x (by simp [hx])]

/-- A nonempty, whitespace-free, dash-free, lowercase-fixed character list is
a fixed point of `NormalizeItemID`. -/
theorem normalize_fixed {l : List Char} (hne : l ≠ [])
    (hch : ∀ c ∈ l, isSpaceChar c = false ∧ replaceDash c = c ∧ Char.toLower c = c) :
    NormalizeItemID (String.mk l) = String.mk l := by
  have hmap : ((String.mk l).toList.map replaceDash).map Char.toLower = l := by
    show (l.map replaceDash).map Char.toLower = l
    rw [map_fixed fun c hc => (hch c hc).2.1, map_fixed fun c hc => (hch c hc).2.2]
  have hfc : fieldsChars l = [l] := by
    unfold fieldsChars
    simpa using fieldsAux_nonspace l [] (fun c hc => (hch c hc).1) (Or.inr hne)
  simp only [NormalizeItemID, hmap, hfc]
  simp [joinUnderscore]

/-- `NormalizeItemID` is idempotent (testable property of §8 of the spec,
proved of the embedding). -/
theorem NormalizeItemID_idem (s : String) :
    NormalizeItemID (NormalizeItemID s) = NormalizeItemID s := by
  by_cases hparts : fieldsChars ((s.toList.map replaceDash).map Char.toLower) = []
  · have h1 : NormalizeItemID s = "" := by
      simp only [NormalizeItemID, hparts]
      rfl
    rw [h1]
    decide
  · have h1 : NormalizeItemID s =
        String.mk (joinUnderscore (fieldsChars ((s.toList.map replaceDash).map Char.toLower))) := by
      simp only [NormalizeItemID, hparts]
      rfl
    set L := (s.toList.map replaceDash).map Char.toLower with hL
    set parts := fieldsChars L with hp
    set jl := joinUnderscore parts with hj
    have hsound := fieldsAux_sound L [] (by simp)
    have hchars : ∀ c ∈ jl, isSpaceChar c = false ∧ replaceDash c = c ∧ Char.toLower c = c := by
      intro c hc
      rcases mem_joinUnderscore parts c hc with h | ⟨w, hw, hcw⟩
      · subst h
        exact ⟨by decide, by decide, by decide⟩
      · have h2 := (hsound w hw).2 c hcw
        have hcl : c ∈ L := by
          rcases h2.2 with h | h
          · simp at h
          · exact h
        rw [hL] at hcl
        simp only [List.mem_map] at hcl
        obtain ⟨d, hd, hdc⟩ := hcl
        obtain ⟨d0, _, hd0⟩ := hd
        refine ⟨h2.1, ?_, ?_⟩
        · unfold replaceDash
          rw [if_neg ?_]
          rw [← hdc, ← hd0]
          exact toLower_ne_dash (replaceDash_ne_dash d0)
        · rw [← hdc]
          exact toLower_idem d
    have hwne : ∀ w ∈ parts, w ≠ [] := fun w hw => (hsound w hw).1
    have hjne : jl ≠ [] := by
      rcases hpe : parts with _ | ⟨w, ws⟩
      · exact absurd hpe hparts
      · rw [hj, hpe]
        exact joinUnderscore_ne_nil w ws (hwne w (by rw [hpe]; simp))
    rw [h1]
    exact normalize_fixed hjne hchars


theorem XPToNext_ge2 (l : Int) : 100 ≤ XPToNext l := by
  unfold XPToNext
  split <;> omega

theorem clampHP_XP (p : Player) : (Player.clampHP p).XP = p.XP := by
  unfold Player.clampHP
  split <;> dsimp only <;> split <;> rfl

theorem clampHP_bumpXP (p : Player) (b : Int) :
    ({ Name := (Player.clampHP p).Name
       Class := (Player.clampHP p).Class
       Gold := (Player.clampHP p).Gold
       HP := (Player.clampHP p).HP
       MaxHP := (Player.clampHP p).MaxHP
       SP := (Player.clampHP p).SP
       Level := (Player.clampHP p).Level
       XP := (Player.clampHP p).XP + b
       Inventory := (Player.clampHP p).Inventory } : Player) =
    Player.clampHP { p with XP := p.XP + b } := by
  unfold Player.clampHP
  dsimp only
  split_ifs <;> rfl

theorem levelLoop_stop {p : Player} (h : p.XP < XPToNext p.Level) : levelLoop p = (p, []) := by
  rw [levelLoop]
  simp only [dif_pos h]

theorem levelLoop_fst_step {p : Player} (h : ¬ p.XP < XPToNext p.Level) :
    (levelLoop p).1 = (levelLoop (Player.clampHP { p with
      XP := p.XP - XPToNext p.Level
      Level := p.Level + 1
      MaxHP := p.MaxHP + 10
      HP := p.HP + 10 })).1 := by
  conv_lhs => rw [levelLoop]
  simp only [dif_neg h]

/-- Level-up processing commutes with adding further XP: running the loop,
bumping XP by `b ≥ 0` and running it again reaches the same player as bumping
first and running once. -/
theorem levelLoop_fst_rebump :
    ∀ (n : Nat) (p : Player) (b : Int), p.XP.toNat ≤ n → 0 ≤ b →
      (levelLoop { (levelLoop p).1 with XP := (levelLoop p).1.XP + b }).1 =
      (levelLoop { p with XP := p.XP + b }).1 := by
  intro n
  induction n with
  | zero =>
    intro p b hn hb
    have h : p.XP < XPToNext p.Level := by
      have := XPToNext_ge2 p.Level
      omega
    rw [levelLoop_stop h]
  | succ n ih =>
    intro p b hn hb
    by_cases h : p.XP < XPToNext p.Level
    · rw [levelLoop_stop h]
    · have h100 := XPToNext_ge2 p.Level
      rw [levelLoop_fst_step h]
      have hb2 : ¬ ({ p with XP := p.XP + b } : Player).XP <
          XPToNext ({ p with XP := p.XP + b } : Player).Level := by
        dsimp only
        omega
      rw [levelLoop_fst_step hb2]
      dsimp only
      rw [ih _ b (by rw [clampHP_XP]; dsimp only; omega) hb]
      rw [clampHP_bumpXP]
      dsimp only
      have harith : p.XP - XPToNext p.Level + b = p.XP + b - XPToNext p.Level := by omega
      rw [harith]

/-- The state part of a positive grant: XP bumped, then the level loop. -/
theorem grantXP_fst (st : State) (amount : Int) (h : 0 < amount) :
    (GrantXP st amount).1 =
      { st with Player := (levelLoop { st.Player with XP := st.Player.XP + amount }).1 } := by
  unfold GrantXP
  rw [if_neg (by omega : ¬ amount ≤ 0)]

/-- Two successive positive grants collapse into one grant of the sum (state
part). -/
theorem grantXP_fst_pair (st : State) (a b : Int) (ha : 0 < a) (hb : 0 < b) :
    (GrantXP (GrantXP st a).1 b).1 = (GrantXP st (a + b)).1 := by
  rw [grantXP_fst st a ha, grantXP_fst _ b hb, grantXP_fst st (a + b) (by omega)]
  dsimp only
  congr 1
  have key := levelLoop_fst_rebump (st.Player.XP + a).toNat
    { st.Player with XP := st.Player.XP + a } b
    (by dsimp only; exact le_refl _) hb.le
  dsimp only at key
  rw [show st.Player.XP + a + b = st.Player.XP + (a + b) by omega] at key
  exact key

/-- Folding positive grants equals one grant of the list sum (state part). -/
theorem grantSeq_eq_single (st : State) (parts : List Int)
    (hpos : ∀ x ∈ parts, 0 < x) :
    grantSeq st parts = (GrantXP st parts.sum).1 := by
  induction parts generalizing st with
  | nil =>
    unfold grantSeq GrantXP
    simp
  | cons x rest ih =>
    have hx : 0 < x := hpos x (by simp)
    have hrest : ∀ y ∈ rest, 0 < y := fun y hy => hpos y (by simp [hy])
    have hstep : grantSeq st (x :: rest) = grantSeq (GrantXP st x).1 rest := rfl
    rw [hstep, ih _ hrest, List.sum_cons]
    by_cases hs : 0 < rest.sum
    · rw [grantXP_fst_pair st x rest.sum hx hs]
    · have h0 : rest.sum = 0 := by
        have : 0 ≤ rest.sum := List.sum_nonneg fun y hy => (hrest y hy).le
        omega
      rw [h0]
      unfold GrantXP
      rw [if_pos (le_refl (0 : Int))]
      rw [show x + 0 = x by omega]

/-- C8: for every starting state and every way of splitting a total XP amount
into strictly positive parts, granting the parts sequentially yields the same
final Level, XP, MaxHP and HP as granting the total once — cumulative XP
determines the outcome, including multi-threshold grants. -/
theorem C8_grantxp_cumulative (st : State) (parts : List Int)
    (hpos : ∀ x ∈ parts, 0 < x) :
    (grantSeq st parts).Player.Level = (GrantXP st parts.sum).1.Player.Level ∧
    (grantSeq st parts).Player.XP = (GrantXP st parts.sum).1.Player.XP ∧
    (grantSeq st parts).Player.MaxHP = (GrantXP st parts.sum).1.Player.MaxHP ∧
    (grantSeq st parts).Player.HP = (GrantXP st parts.sum).1.Player.HP := by
  rw [grantSeq_eq_single st parts hpos]
  exact ⟨rfl, rfl, rfl, rfl⟩

theorem C8_grantxp_cumulative_witness :
    (∀ x ∈ ([150, 200] : List Int), 0 < x) ∧
    ((grantSeq DefaultState [150, 200]).Player.Level =
        (GrantXP DefaultState ([150, 200] : List Int).sum).1.Player.Level ∧
      (grantSeq DefaultState [150, 200]).Player.XP =
        (GrantXP DefaultState ([150, 200] : List Int).sum).1.Player.XP ∧
      (grantSeq DefaultState [150, 200]).Player.MaxHP =
        (GrantXP DefaultState ([150, 200] : List Int).sum).1.Player.MaxHP ∧
      (grantSeq DefaultState [150, 200]).Player.HP =
        (GrantXP DefaultState ([150, 200] : List Int).sum).1.Player.HP) :=
  ⟨by decide, C8_grantxp_cumulative DefaultState [150, 200] (by decide)⟩

theorem clampHP_MaxHP (p : Player) : (Player.clampHP p).MaxHP = p.MaxHP := by
  unfold Player.clampHP
  split <;> dsimp only <;> split <;> rfl

theorem clampHP_SP (p : Player) : (Player.clampHP p).SP = p.SP := by
  unfold Player.clampHP
  split <;> dsimp only <;> split <;> rfl

theorem clampHP_Level (p : Player) : (Player.clampHP p).Level = p.Level := by
  unfold Player.clampHP
  split <;> dsimp only <;> split <;> rfl

theorem clampHP_Inventory (p : Player) : (Player.clampHP p).Inventory = p.Inventory := by
  unfold Player.clampHP
  split <;> dsimp only <;> split <;> rfl

theorem clampHP_HP_nonneg (p : Player) (h : 0 ≤ p.MaxHP) : 0 ≤ (Player.clampHP p).HP := by
  unfold Player.clampHP
  split <;> (try dsimp only) <;> split <;> (try dsimp only) <;> omega

theorem clampHP_HP_le (p : Player) (h : 0 ≤ p.MaxHP) :
    (Player.clampHP p).HP ≤ p.MaxHP := by
  unfold Player.clampHP
  split <;> (try dsimp only) <;> split <;> (try dsimp only) <;> omega

/-- `ClampHP` establishes the full invariant from the HP-free components. -/
theorem clampHP_inv_gen {q : Player} (hmax : 0 ≤ q.MaxHP) (hsp : 0 ≤ q.SP)
    (hxp : 0 ≤ q.XP) (hlev : 1 ≤ q.Level) (hpos : ∀ k, 0 ≤ q.Inventory k)
    (hcan : ∀ k, q.Inventory k ≠ 0 → NormalizeItemID k = k) :
    InvPlayer (Player.clampHP q) := by
  refine ⟨clampHP_HP_nonneg q hmax, ?_, ?_, ?_, ?_, ?_, ?_⟩
  · rw [clampHP_MaxHP]
    exact clampHP_HP_le q hmax
  · rw [clampHP_SP]
    exact hsp
  · rw [clampHP_XP]
    exact hxp
  · rw [clampHP_Level]
    exact hlev
  · rw [clampHP_Inventory]
    exact hpos
  · rw [clampHP_Inventory]
    exact hcan

theorem inv_setHP {p : Player} (h : InvPlayer p) {v : Int} (h0 : 0 ≤ v)
    (h1 : v ≤ p.MaxHP) : InvPlayer { p with HP := v } := by
  obtain ⟨_, _, h3, h4, h5, h6, h7⟩ := h
  exact ⟨h0, h1, h3, h4, h5, h6, h7⟩

theorem inv_setGold {p : Player} (h : InvPlayer p) (g : Int) :
    InvPlayer { p with Gold := g } := by
  obtain ⟨h1, h2, h3, h4, h5, h6, h7⟩ := h
  exact ⟨h1, h2, h3, h4, h5, h6, h7⟩

theorem inv_setSP {p : Player} (h : InvPlayer p) {v : Int} (h0 : 0 ≤ v) :
    InvPlayer { p with SP := v } := by
  obtain ⟨h1, h2, _, h4, h5, h6, h7⟩ := h
  exact ⟨h1, h2, h0, h4, h5, h6, h7⟩

theorem AddItem_HP (p : Player) (id : String) (q : Int) : (AddItem p id q).HP = p.HP := by
  unfold AddItem
  dsimp only
  split_ifs <;> rfl

theorem AddItem_MaxHP (p : Player) (id : String) (q : Int) :
    (AddItem p id q).MaxHP = p.MaxHP := by
  unfold AddItem
  dsimp only
  split_ifs <;> rfl

theorem AddItem_inv {p : Player} (h : InvPlayer p) (id : String) (q : Int) :
    InvPlayer (AddItem p id q) := by
  unfold AddItem
  dsimp only
  split_ifs with h1 h2
  · exact h
  · exact h
  · obtain ⟨hHP, hle, hSP, hXP, hLev, hpos, hcan⟩ := h
    refine ⟨hHP, hle, hSP, hXP, hLev, ?_, ?_⟩
    · intro k
      dsimp only
      split_ifs with hk
      · have := hpos k
        omega
      · exact hpos k
    · intro k hk0
      dsimp only at hk0
      by_cases hk : k = NormalizeItemID id
      · rw [hk]
        exact NormalizeItemID_idem id
      · rw [if_neg hk] at hk0
        exact hcan k hk0

theorem RemoveItem_inv {p : Player} (h : InvPlayer p) (id : String) (q : Int) :
    InvPlayer (RemoveItem p id q) := by
  unfold RemoveItem
  dsimp only
  split_ifs with h1 h2 h3
  · exact h
  · exact h
  · obtain ⟨hHP, hle, hSP, hXP, hLev, hpos, hcan⟩ := h
    refine ⟨hHP, hle, hSP, hXP, hLev, ?_, ?_⟩
    · intro k
      dsimp only
      split_ifs with hk
      · omega
      · exact hpos k
    · intro k hk0
      dsimp only at hk0
      by_cases hk : k = NormalizeItemID id
      · rw [if_pos hk] at hk0
        exact absurd rfl hk0
      · rw [if_neg hk] at hk0
        exact hcan k hk0
  · obtain ⟨hHP, hle, hSP, hXP, hLev, hpos, hcan⟩ := h
    refine ⟨hHP, hle, hSP, hXP, hLev, ?_, ?_⟩
    · intro k
      dsimp only
      split_ifs with hk
      · omega
      · exact hpos k
    · intro k hk0
      dsimp only at hk0
      by_cases hk : k = NormalizeItemID id
      · rw [hk]
        exact NormalizeItemID_idem id
      · rw [if_neg hk] at hk0
        exact hcan k hk0

theorem applyLoot_inv : ∀ (loot : List String) {p : Player}, InvPlayer p →
    InvPlayer (applyLoot p loot).1
  | [], p => fun h => h
  | it :: rest, p => by
    intro h
    have h1 := applyLoot_inv rest (AddItem_inv h it 1)
    show InvPlayer (match applyLoot (AddItem p it 1) rest with
      | (q, evs) => (q, Event.ItemAdded it 1 :: evs)).1
    rcases hr : applyLoot (AddItem p it 1) rest with ⟨q, evs⟩
    rw [hr] at h1
    exact h1

theorem applyLoot_HP : ∀ (loot : List String) (p : Player),
    (applyLoot p loot).1.HP = p.HP
  | [], p => rfl
  | it :: rest, p => by
    have h1 := applyLoot_HP rest (AddItem p it 1)
    rw [AddItem_HP] at h1
    show (match applyLoot (AddItem p it 1) rest with
      | (q, evs) => (q, Event.ItemAdded it 1 :: evs)).1.HP = p.HP
    rcases hr : applyLoot (AddItem p it 1) rest with ⟨q, evs⟩
    rw [hr] at h1
    exact h1

theorem applyLoot_MaxHP : ∀ (loot : List String) (p : Player),
    (applyLoot p loot).1.MaxHP = p.MaxHP
  | [], p => rfl
  | it :: rest, p => by
    have h1 := applyLoot_MaxHP rest (AddItem p it 1)
    rw [AddItem_MaxHP] at h1
    show (match applyLoot (AddItem p it 1) rest with
      | (q, evs) => (q, Event.ItemAdded it 1 :: evs)).1.MaxHP = p.MaxHP
    rcases hr : applyLoot (AddItem p it 1) rest with ⟨q, evs⟩
    rw [hr] at h1
    exact h1

theorem levelLoop_fst_inv :
    ∀ (n : Nat) (p : Player), p.XP.toNat ≤ n → InvPlayer p →
      InvPlayer (levelLoop p).1 := by
  intro n
  induction n with
  | zero =>
    intro p hn h
    have hstop : p.XP < XPToNext p.Level := by
      have := XPToNext_ge2 p.Level
      omega
    rw [levelLoop_stop hstop]
    exact h
  | succ n ih =>
    intro p hn h
    by_cases hs : p.XP < XPToNext p.Level
    · rw [levelLoop_stop hs]
      exact h
    · have h100 := XPToNext_ge2 p.Level
      obtain ⟨hHP, hle, hSP, hXP, hLev, hpos, hcan⟩ := h
      rw [levelLoop_fst_step hs]
      apply ih
      · rw [clampHP_XP]
        dsimp only
        omega
      · exact clampHP_inv_gen (by dsimp only; omega) hSP (by dsimp only; omega)
          (by dsimp only; omega) hpos hcan

theorem levelLoop_fst_MaxHP_mono :
    ∀ (n : Nat) (p : Player), p.XP.toNat ≤ n → 0 ≤ p.XP →
      p.MaxHP ≤ (levelLoop p).1.MaxHP := by
  intro n
  induction n with
  | zero =>
    intro p hn hxp
    have hstop : p.XP < XPToNext p.Level := by
      have := XPToNext_ge2 p.Level
      omega
    rw [levelLoop_stop hstop]
  | succ n ih =>
    intro p hn hxp
    by_cases hs : p.XP < XPToNext p.Level
    · rw [levelLoop_stop hs]
    · have h100 := XPToNext_ge2 p.Level
      rw [levelLoop_fst_step hs]
      have := ih (Player.clampHP { p with
        XP := p.XP - XPToNext p.Level
        Level := p.Level + 1
        MaxHP := p.MaxHP + 10
        HP := p.HP + 10 }) (by rw [clampHP_XP]; dsimp only; omega)
        (by rw [clampHP_XP]; dsimp only; omega)
      rw [clampHP_MaxHP] at this
      dsimp only at this
      omega

theorem GrantXP_inv {st : State} (h : Inv st) (amount : Int) :
    Inv (GrantXP st amount).1 := by
  by_cases ha : amount ≤ 0
  · unfold GrantXP
    rw [if_pos ha]
    exact h
  · rw [grantXP_fst st amount (by omega)]
    have hInvP : InvPlayer ({ st.Player with XP := st.Player.XP + amount } : Player) := by
      obtain ⟨h1, h2, h3, h4, h5, h6, h7⟩ := h
      exact ⟨h1, h2, h3, by dsimp only; omega, h5, h6, h7⟩
    exact levelLoop_fst_inv _ _ (le_refl _) hInvP

theorem GrantXP_MaxHP_mono (st : State) (amount : Int) (hxp : 0 ≤ st.Player.XP) :
    st.Player.MaxHP ≤ (GrantXP st amount).1.Player.MaxHP := by
  by_cases ha : amount ≤ 0
  · unfold GrantXP
    rw [if_pos ha]
  · rw [grantXP_fst st amount (by omega)]
    have := levelLoop_fst_MaxHP_mono (st.Player.XP + amount).toNat
      { st.Player with XP := st.Player.XP + amount }
      (by dsimp only; exact le_refl _) (by dsimp only; omega)
    dsimp only at this ⊢
    omega

/-- Every normal combat exit leaves the persistent state either untouched or
with only the player HP zeroed. -/
theorem ResolveCombat_states {st : State} {e : EnemyTemplate} {rng : Rng} {fuel : Nat}
    {r : CombatResult} {evs : List Event} {st2 : State} {rng2 : Rng}
    (h : ResolveCombat st e rng fuel = CombatRes.out r evs st2 rng2) :
    st2 = st ∨ st2 = { st with Player := { st.Player with HP := 0 } } := by
  rcases combatLoop_out_shape fuel st e st.Player.Level st.Player.HP e.HP
    [Event.EncounterStarted e.ID] rng r evs st2 rng2 h with hc | hc | hc
  · exact Or.inl hc.2
  · exact Or.inr hc.2.1
  · exact Or.inl hc.2.1

theorem ResolveCombat_inv {st : State} {e : EnemyTemplate} {rng : Rng} {fuel : Nat}
    {r : CombatResult} {evs : List Event} {st2 : State} {rng2 : Rng} (hInv : Inv st)
    (h : ResolveCombat st e rng fuel = CombatRes.out r evs st2 rng2) : Inv st2 := by
  rcases ResolveCombat_states h with hc | hc
  · rw [hc]
    exact hInv
  · rw [hc]
    obtain ⟨h1, h2, h3, h4, h5, h6, h7⟩ := hInv
    exact inv_setHP ⟨h1, h2, h3, h4, h5, h6, h7⟩ (le_refl 0) (le_trans h1 h2)

theorem inv_maxHP0 {p : Player} (h : InvPlayer p) : InvPlayer { p with HP := max p.HP 0 } := by
  obtain ⟨h1, h2, h3, h4, h5, h6, h7⟩ := h
  exact ⟨le_max_right _ _, max_le h2 (le_trans h1 h2), h3, h4, h5, h6, h7⟩

theorem Explore_inv {st : State} {rng : Rng} {fuel : Nat} {st2 : State} {rng2 : Rng}
    {evs : List Event} {err : Option String} (hInv : Inv st)
    (h : Explore st rng fuel = RunRes.ok st2 rng2 evs err) : Inv st2 := by
  unfold Explore at h
  split at h
  · cases h
    exact hInv
  · split at h
    · cases h
    · rename_i r0 rng1 hi
      try dsimp only at h
      split at h
      · -- treasure band
        split at h
        · cases h
        · rename_i g rngg hg
          try dsimp only at h
          split at h
          · cases h
          · rename_i i rngi hii
            try dsimp only at h
            cases h
            exact AddItem_inv (inv_setGold hInv _) _ 1
      · split at h
        · -- item band
          split at h
          · cases h
          · rename_i i rngi hii
            try dsimp only at h
            cases h
            exact AddItem_inv hInv _ 1
        · split at h
          · -- gold band
            split at h
            · cases h
            · rename_i g rngg hg
              try dsimp only at h
              cases h
              exact inv_setGold hInv _
          · split at h
            · -- combat band
              split at h
              · cases h
              · rename_i eid rngc hce
                try dsimp only at h
                split at h
                · cases h
                · cases h
                · rename_i r cevs st3 rngc2 hcomb
                  try dsimp only at h
                  have h3 : Inv st3 := by
                    apply ResolveCombat_inv _ hcomb
                    exact hInv
                  split at h
                  · -- win
                    cases h
                    exact applyLoot_inv r.Loot (inv_setGold (@GrantXP_inv { st3 with
                      Player := { st3.Player with HP := max st3.Player.HP 0 } }
                      (inv_maxHP0 h3) r.XP) _)
                  · -- lose
                    cases h
                    exact inv_maxHP0 h3
            · -- nothing band
              cases h
              exact hInv

theorem intn_some {r : Rng} {n d : Int} {r2 : Rng} (h : r.intn n = some (d, r2)) :
    0 ≤ d ∧ d < n := by
  unfold Rng.intn at h
  split at h
  · cases h
  · rename_i hn
    split at h
    · cases h
      constructor
      · exact le_refl 0
      · omega
    · cases h
      constructor
      · exact Int.emod_nonneg _ (by omega)
      · exact Int.emod_lt_of_pos _ (by omega)

theorem Hunt_inv {st : State} {extraSP : Int} {rng : Rng} {fuel : Nat} {st2 : State}
    {rng2 : Rng} {evs : List Event} {err : Option String} (hInv : Inv st)
    (h : Hunt st extraSP rng fuel = RunRes.ok st2 rng2 evs err) : Inv st2 := by
  unfold Hunt at h
  split at h
  · cases h
    exact hInv
  · rename_i halive
    have hHPpos : 0 < st.Player.HP := by
      simpa [Player.IsAlive] using halive
    try dsimp only at h
    split at h
    all_goals try split at h
    all_goals try split at h
    all_goals try (cases h; exact hInv)
    all_goals split at h
    all_goals try (cases h)
    all_goals rename_i eid rngc hce
    all_goals split at h
    all_goals try (cases h)
    all_goals rename_i r cevs st3 rngc2 hcomb
    all_goals try dsimp only at h
    all_goals split at h
    all_goals try split at h
    all_goals try (cases h)
    all_goals first
      | -- combat loss (or fallthrough): state is the combat exit state
        (refine ResolveCombat_inv ?_ hcomb
         apply inv_setSP hInv
         omega)
      | -- win without the revive rule
        (apply applyLoot_inv
         apply inv_setGold
         apply GrantXP_inv
         refine ResolveCombat_inv ?_ hcomb
         apply inv_setSP hInv
         omega)
      | -- win with the revive-to-1 rule
        (apply inv_setHP
         · apply applyLoot_inv
           apply inv_setGold
           apply GrantXP_inv
           refine ResolveCombat_inv ?_ hcomb
           apply inv_setSP hInv
           omega
         · omega
         · rw [applyLoot_MaxHP]
           refine le_trans ?_ (GrantXP_MaxHP_mono _ _ ?_)
           · rcases ResolveCombat_states hcomb with hc | hc <;>
               · rw [hc]
                 dsimp only
                 obtain ⟨h1, h2, h3, h4, h5, h6, h7⟩ := hInv
                 omega
           · rcases ResolveCombat_states hcomb with hc | hc <;>
               · rw [hc]
                 dsimp only
                 obtain ⟨h1, h2, h3, h4, h5, h6, h7⟩ := hInv
                 omega)

theorem Rest_inv {st : State} {sp : Int} {st2 : State} {evs : List Event}
    {err : Option String} (hInv : Inv st) (h : Rest st sp = (st2, evs, err)) : Inv st2 := by
  unfold Rest at h
  split at h
  · cases h
    exact hInv
  · split at h
    · cases h
      exact hInv
    · cases h
      obtain ⟨h1, h2, h3, h4, h5, h6, h7⟩ := hInv
      exact clampHP_inv_gen (by dsimp only; omega) (by dsimp only; omega)
        (by dsimp only; omega) (by dsimp only; omega) h6 h7

theorem UseItem_inv {st : State} {itemID : String} {rng : Rng} {st2 : State}
    {rng2 : Rng} {evs : List Event} {err : Option String} (hInv : Inv st)
    (h : UseItem st itemID rng = RunRes.ok st2 rng2 evs err) : Inv st2 := by
  unfold UseItem at h
  try dsimp only at h
  split at h
  · cases h
    exact hInv
  · split at h
    · cases h
      exact hInv
    · split at h
      · cases h
        exact hInv
      · rename_i item hitem
        split at h
        · rename_i hpotion
          rw [hpotion] at hitem
          simp [Items] at hitem
          subst hitem
          split at h
          · cases h
          · rename_i d1 rngA hd1
            split at h
            · cases h
            · rename_i d2 rngB hd2
              have hb1 := intn_some hd1
              have hb2 := intn_some hd2
              try dsimp only at h
              cases h
              apply RemoveItem_inv
              apply clampHP_inv_gen
              · dsimp only
                obtain ⟨h1, h2, h3, h4, h5, h6, h7⟩ := hInv
                omega
              · dsimp only
                obtain ⟨h1, h2, h3, h4, h5, h6, h7⟩ := hInv
                omega
              · dsimp only
                obtain ⟨h1, h2, h3, h4, h5, h6, h7⟩ := hInv
                omega
              · dsimp only
                obtain ⟨h1, h2, h3, h4, h5, h6, h7⟩ := hInv
                omega
              · exact hInv.2.2.2.2.2.1
              · exact hInv.2.2.2.2.2.2
        · cases h
          exact hInv

theorem Inv_default : Inv DefaultState := by
  refine ⟨by decide, by decide, by decide, by decide, by decide, ?_, ?_⟩
  · intro k
    dsimp only [DefaultState]
    split_ifs <;> decide
  · intro k hk
    dsimp only [DefaultState] at hk
    split_ifs at hk with h1 h2
    · subst h1
      decide
    · subst h2
      decide
    · exact absurd rfl hk

/-- C5: every action handler (Explore, Hunt, Rest, UseItem), together with
the GrantXP and ResolveCombat steps they invoke, preserves the state
invariant: starting from any state satisfying it, after the call HP ≥ 0,
SP ≥ 0, HP ≤ MaxHP, every stored inventory count is strictly positive,
XP ≥ 0, Level ≥ 1, and every inventory key is a canonical normalized item id
(no duplicate case/separator variants coexist). -/
theorem C5_invariants_preserved :
    (∀ st rng fuel st2 rng2 evs err, Inv st →
      Explore st rng fuel = RunRes.ok st2 rng2 evs err → Inv st2) ∧
    (∀ st extraSP rng fuel st2 rng2 evs err, Inv st →
      Hunt st extraSP rng fuel = RunRes.ok st2 rng2 evs err → Inv st2) ∧
    (∀ st sp st2 evs err, Inv st → Rest st sp = (st2, evs, err) → Inv st2) ∧
    (∀ st itemID rng st2 rng2 evs err, Inv st →
      UseItem st itemID rng = RunRes.ok st2 rng2 evs err → Inv st2) ∧
    (∀ st amount, Inv st → Inv (GrantXP st amount).1) ∧
    (∀ st e rng fuel r evs st2 rng2, Inv st →
      ResolveCombat st e rng fuel = CombatRes.out r evs st2 rng2 → Inv st2) :=
  ⟨fun _ _ _ _ _ _ _ h1 h2 => Explore_inv h1 h2,
   fun _ _ _ _ _ _ _ _ h1 h2 => Hunt_inv h1 h2,
   fun _ _ _ _ _ h1 h2 => Rest_inv h1 h2,
   fun _ _ _ _ _ _ _ h1 h2 => UseItem_inv h1 h2,
   fun _ amount h => GrantXP_inv h amount,
   fun _ _ _ _ _ _ _ _ h1 h2 => ResolveCombat_inv h1 h2⟩

theorem C5_invariants_preserved_witness :
    Inv DefaultState ∧ Inv (Rest DefaultState 2).1 :=
  ⟨Inv_default,
    C5_invariants_preserved.2.2.1 DefaultState 2 (Rest DefaultState 2).1
      (Rest DefaultState 2).2.1 (Rest DefaultState 2).2.2 Inv_default rfl⟩

/-- C4: for every action handler and every input on which the handler
returns an error, the returned event sequence is empty and the state is
exactly as it was before the call — no field of Player or Meta (including
CommandCount) is changed; all validation happens before any mutation. -/
theorem C4_error_no_mutation :
    (∀ st rng fuel st2 rng2 evs e,
      Explore st rng fuel = RunRes.ok st2 rng2 evs (some e) → st2 = st ∧ evs = []) ∧
    (∀ st extraSP rng fuel st2 rng2 evs e,
      Hunt st extraSP rng fuel = RunRes.ok st2 rng2 evs (some e) → st2 = st ∧ evs = []) ∧
    (∀ st sp st2 evs e,
      Rest st sp = (st2, evs, some e) → st2 = st ∧ evs = []) ∧
    (∀ st itemID rng st2 rng2 evs e,
      UseItem st itemID rng = RunRes.ok st2 rng2 evs (some e) → st2 = st ∧ evs = []) := by
  refine ⟨?_, ?_, ?_, ?_⟩
  · intro st rng fuel st2 rng2 evs e h
    unfold Explore at h
    repeat' first | (cases h; exact ⟨rfl, rfl⟩) | split at h | simp at h
  · intro st extraSP rng fuel st2 rng2 evs e h
    unfold Hunt at h
    repeat' first | (cases h; exact ⟨rfl, rfl⟩) | split at h | simp at h
  · intro st sp st2 evs e h
    unfold Rest at h
    repeat' first | (cases h; exact ⟨rfl, rfl⟩) | split at h | simp at h
  · intro st itemID rng st2 rng2 evs e h
    unfold UseItem at h
    repeat' first | (cases h; exact ⟨rfl, rfl⟩) | split at h | simp at h

theorem C4_error_no_mutation_witness :
    Rest DefaultState 0 = (DefaultState, [], some "invalid SP amount") ∧
    (DefaultState = DefaultState ∧ ([] : List Event) = []) :=
  ⟨rfl, C4_error_no_mutation.2.2.1 DefaultState 0 DefaultState [] "invalid SP amount" rfl⟩

/-- C3 counterexample: `meat` is owned, catalogued, and its catalog entry
defines HP/SP use-effect ranges (HP 40–40, SP 2–2), yet `UseItem` returns the
no-use-effect error: the code dispatches on `itemID == "healing_potion"`, not
on whether ranges are defined. -/
theorem C3_meat_has_ranges_but_no_use_effect :
    ((Items "meat").map fun it => (it.HPMin, it.HPMax, it.SPMin, it.SPMax)) =
      some (40, 40, 2, 2) ∧
    HasItem (AddItem DefaultState.Player "meat" 1) "meat" 1 = true ∧
    UseItem { DefaultState with Player := AddItem DefaultState.Player "meat" 1 } "meat"
      { ints := [], floats := [] } =
      RunRes.ok { DefaultState with Player := AddItem DefaultState.Player "meat" 1 }
        { ints := [], floats := [] } [] (some "item has no use effect") :=
  ⟨by decide, by decide, rfl⟩

/-- C3 (amended): for every state, item id and randomness source such that
the normalized id is non-empty, the item is held, and it is present in the
catalog, `UseItem` returns the NoUseEffect error exactly when the normalized
id is not `healing_potion` — even when the entry defines HP/SP ranges, as for
`meat`; for `healing_potion` it succeeds, drawing the HP gain from [10,25]
and the SP gain from [1,3], applying both with the HP clamp, and consuming
one unit. -/
theorem C3_useitem_noeffect_iff_not_potion (st : State) (itemID : String) (rng : Rng)
    (hne : NormalizeItemID itemID ≠ "")
    (hown : HasItem st.Player (NormalizeItemID itemID) 1 = true)
    (hcat : (Items (NormalizeItemID itemID)).isSome) :
    (NormalizeItemID itemID ≠ "healing_potion" →
      UseItem st itemID rng = RunRes.ok st rng [] (some "item has no use effect")) ∧
    (NormalizeItemID itemID = "healing_potion" →
      ∃ d1 rngA d2 rngB,
        rng.intn 16 = some (d1, rngA) ∧ rngA.intn 3 = some (d2, rngB) ∧
        0 ≤ d1 ∧ d1 < 16 ∧ 0 ≤ d2 ∧ d2 < 3 ∧
        UseItem st itemID rng = RunRes.ok
          { st with Player := RemoveItem (Player.clampHP { st.Player with
              HP := st.Player.HP + (10 + d1)
              SP := st.Player.SP + (1 + d2) }) (NormalizeItemID itemID) 1 } rngB
          [Event.ItemRemoved (NormalizeItemID itemID) 1, Event.HPRestored (10 + d1)]
          none) := by
  obtain ⟨item, hitem⟩ := Option.isSome_iff_exists.mp hcat
  constructor
  · intro hnp
    unfold UseItem
    dsimp only
    rw [if_neg hne, if_neg (by simp [hown]), hitem]
    dsimp only
    rw [if_neg hnp]
  · intro hp
    have hitem2 := hitem
    rw [hp] at hitem2
    simp [Items] at hitem2
    unfold UseItem
    dsimp only
    rw [if_neg hne, if_neg (by simp [hown]), hitem]
    dsimp only
    rw [if_pos hp, ← hitem2]
    dsimp only
    obtain ⟨d1, rngA, h1, h1a, h1b⟩ := intn_pos rng (show (0:Int) < 25 - 10 + 1 by norm_num)
    obtain ⟨d2, rngB, h2, h2a, h2b⟩ := intn_pos rngA (show (0:Int) < 3 - 1 + 1 by norm_num)
    rw [h1]
    dsimp only
    rw [h2]
    dsimp only
    refine ⟨d1, rngA, d2, rngB, by norm_num at h1 ⊢; exact h1, by norm_num at h2 ⊢; exact h2,
      h1a, by omega, h2a, by omega, ?_⟩
    rw [hp]

theorem C3_useitem_noeffect_iff_not_potion_witness :
    (NormalizeItemID "meat" ≠ "" ∧
      HasItem (AddItem DefaultState.Player "meat" 1) (NormalizeItemID "meat") 1 = true ∧
      (Items (NormalizeItemID "meat")).isSome ∧
      NormalizeItemID "meat" ≠ "healing_potion") ∧
    UseItem { DefaultState with Player := AddItem DefaultState.Player "meat" 1 } "meat"
      { ints := [], floats := [] } =
      RunRes.ok { DefaultState with Player := AddItem DefaultState.Player "meat" 1 }
        { ints := [], floats := [] } [] (some "item has no use effect") :=
  ⟨⟨by decide, by decide, by decide, by decide⟩,
    (C3_useitem_noeffect_iff_not_potion
      { DefaultState with Player := AddItem DefaultState.Player "meat" 1 } "meat"
      { ints := [], floats := [] } (by decide) (by decide) (by decide)).1 (by decide)⟩

/-- C7: for every state with player HP > 0 and every randomness source,
Explore increments Meta.CommandCount by exactly 1 and resolves
roll = nextInt(100)+1 by cumulative bands: 1–2 treasure (gold 100+nextInt(401),
one item uniformly from the three-item list, events ExplorationResult
"treasure", GoldGained, ItemAdded); 3–10 item find (uniform over
healing_potion/torch); 11–30 gold find (5+nextInt(46)); 31–50 enemy encounter
via the weighted selection with extraSP = 0 followed by combat (on a win the
XP, gold and loot rewards are applied); 51–100 nothing, with the single
ExplorationResult "nothing" event. -/
theorem C7_explore_bands (st : State) (rng : Rng) (fuel : Nat)
    (halive : 0 < st.Player.HP)
    (r0 : Int) (rng1 : Rng) (hroll : rng.intn 100 = some (r0, rng1)) :
    (1 ≤ r0 + 1 ∧ r0 + 1 ≤ 100) ∧
    (r0 + 1 ≤ 2 → ∀ g rng2 i rng3, rng1.intn 401 = some (g, rng2) →
      rng2.intn 3 = some (i, rng3) →
      Explore st rng fuel = RunRes.ok
        { st with
          Meta := { st.Meta with CommandCount := st.Meta.CommandCount + 1 }
          Player := AddItem { st.Player with Gold := st.Player.Gold + (100 + g) }
            (["healing_potion", "rusty_dagger", "torch"].getD i.toNat "") 1 } rng3
        [Event.ExplorationResult "treasure", Event.GoldGained (100 + g),
          Event.ItemAdded (["healing_potion", "rusty_dagger", "torch"].getD i.toNat "") 1]
        none) ∧
    (3 ≤ r0 + 1 → r0 + 1 ≤ 10 → ∀ i rng2, rng1.intn 2 = some (i, rng2) →
      Explore st rng fuel = RunRes.ok
        { st with
          Meta := { st.Meta with CommandCount := st.Meta.CommandCount + 1 }
          Player := AddItem st.Player (["healing_potion", "torch"].getD i.toNat "") 1 } rng2
        [Event.ExplorationResult "item",
          Event.ItemAdded (["healing_potion", "torch"].getD i.toNat "") 1] none) ∧
    (11 ≤ r0 + 1 → r0 + 1 ≤ 30 → ∀ g rng2, rng1.intn 46 = some (g, rng2) →
      Explore st rng fuel = RunRes.ok
        { st with
          Meta := { st.Meta with CommandCount := st.Meta.CommandCount + 1 }
          Player := { st.Player with Gold := st.Player.Gold + (5 + g) } } rng2
        [Event.ExplorationResult "gold", Event.GoldGained (5 + g)] none) ∧
    (31 ≤ r0 + 1 → r0 + 1 ≤ 50 → ∀ eid rngc,
      ChooseEnemy { st with Meta := { st.Meta with
        CommandCount := st.Meta.CommandCount + 1 } } 0 rng1 = some (eid, rngc) →
      ∀ r cevs st3 rng3,
      ResolveCombat { st with Meta := { st.Meta with
          CommandCount := st.Meta.CommandCount + 1 } } (Enemies eid) rngc fuel =
        CombatRes.out r cevs st3 rng3 →
      (r.Outcome ≠ "win" →
        Explore st rng fuel = RunRes.ok
          { st3 with Player := { st3.Player with HP := max st3.Player.HP 0 } } rng3 cevs
          none) ∧
      (r.Outcome = "win" →
        ∃ st4 xevs p levs,
          GrantXP { st3 with Player := { st3.Player with HP := max st3.Player.HP 0 } }
            r.XP = (st4, xevs) ∧
          applyLoot { st4.Player with Gold := st4.Player.Gold + r.Gold } r.Loot =
            (p, levs) ∧
          Explore st rng fuel = RunRes.ok { st4 with Player := p } rng3
            (((cevs ++ xevs) ++ [Event.GoldGained r.Gold]) ++ levs) none)) ∧
    (51 ≤ r0 + 1 →
      Explore st rng fuel = RunRes.ok
        { st with Meta := { st.Meta with CommandCount := st.Meta.CommandCount + 1 } } rng1
        [Event.ExplorationResult "nothing"] none) := by
  have hb := intn_some hroll
  refine ⟨by omega, ?_, ?_, ?_, ?_, ?_⟩
  · intro h2 g rng2 i rng3 hg hi
    unfold Explore
    rw [if_neg (by simp [Player.IsAlive]; omega)]
    dsimp only
    rw [hroll]
    dsimp only
    rw [if_pos h2, hg]
    dsimp only
    rw [hi]
    all_goals dsimp only
    all_goals rfl
  · intro h3 h10 i rng2 hi
    unfold Explore
    rw [if_neg (by simp [Player.IsAlive]; omega)]
    dsimp only
    rw [hroll]
    dsimp only
    rw [if_neg (by omega), if_pos h10, hi]
    all_goals dsimp only
    all_goals rfl
  · intro h11 h30 g rng2 hg
    unfold Explore
    rw [if_neg (by simp [Player.IsAlive]; omega)]
    dsimp only
    rw [hroll]
    dsimp only
    rw [if_neg (by omega), if_neg (by omega), if_pos h30, hg]
    all_goals dsimp only
    all_goals rfl
  · intro h31 h50 eid rngc hce r cevs st3 rng3 hcomb
    constructor
    · intro hnw
      unfold Explore
      rw [if_neg (by simp [Player.IsAlive]; omega)]
      dsimp only
      rw [hroll]
      dsimp only
      rw [if_neg (by omega), if_neg (by omega), if_neg (by omega), if_pos h50]
      dsimp only at hce hcomb ⊢
      rw [hce]
      dsimp only
      rw [hcomb]
      dsimp only
      rw [if_neg hnw]
      all_goals dsimp only
      all_goals rfl
    · intro hw
      refine ⟨_, _, _, _, rfl, rfl, ?_⟩
      unfold Explore
      rw [if_neg (by simp [Player.IsAlive]; omega)]
      dsimp only
      rw [hroll]
      dsimp only
      rw [if_neg (by omega), if_neg (by omega), if_neg (by omega), if_pos h50]
      dsimp only at hce hcomb ⊢
      rw [hce]
      dsimp only
      rw [hcomb]
      dsimp only
      rw [if_pos hw]
      all_goals try dsimp only
      all_goals rfl
  · intro h51
    unfold Explore
    rw [if_neg (by simp [Player.IsAlive]; omega)]
    dsimp only
    rw [hroll]
    dsimp only
    rw [if_neg (by omega), if_neg (by omega), if_neg (by omega), if_neg (by omega)]
    all_goals dsimp only
    all_goals rfl

theorem C7_explore_bands_witness :
    (0 < DefaultState.Player.HP ∧
      Rng.intn { ints := [0, 0, 1], floats := [] } 100 =
        some (0, { ints := [0, 1], floats := [] }) ∧
      (0 : Int) + 1 ≤ 2 ∧
      Rng.intn { ints := [0, 1], floats := [] } 401 =
        some (0, { ints := [1], floats := [] }) ∧
      Rng.intn { ints := [1], floats := [] } 3 =
        some (1, { ints := [], floats := [] })) ∧
    Explore DefaultState { ints := [0, 0, 1], floats := [] } 0 = RunRes.ok
      { DefaultState with
        Meta := { DefaultState.Meta with
          CommandCount := DefaultState.Meta.CommandCount + 1 }
        Player := AddItem
          { DefaultState.Player with Gold := DefaultState.Player.Gold + (100 + 0) }
          (["healing_potion", "rusty_dagger", "torch"].getD (1 : Int).toNat "") 1 }
      { ints := [], floats := [] }
      [Event.ExplorationResult "treasure", Event.GoldGained (100 + 0),
        Event.ItemAdded (["healing_potion", "rusty_dagger", "torch"].getD (1 : Int).toNat "") 1]
      none := by
  refine ⟨⟨by decide, rfl, by decide, rfl, rfl⟩, ?_⟩
  have h := (C7_explore_bands DefaultState { ints := [0, 0, 1], floats := [] } 0
    (by decide) 0 { ints := [0, 1], floats := [] } rfl).2.1 (by decide)
    0 { ints := [1], floats := [] } 1 { ints := [], floats := [] } rfl rfl
  exact h

/-- C9: the item-id normalization is idempotent — for every string s,
normalize(normalize(s)) = normalize(s) — and merges case/separator variants:
normalize("Rusty-Dagger") = normalize("rusty_dagger") = "rusty_dagger", and
normalize("") = "". -/
theorem C9_normalize_idempotent_merges_variants :
    (∀ s : String, NormalizeItemID (NormalizeItemID s) = NormalizeItemID s) ∧
    NormalizeItemID "Rusty-Dagger" = "rusty_dagger" ∧
    NormalizeItemID "rusty_dagger" = "rusty_dagger" ∧
    NormalizeItemID "" = "" :=
  ⟨NormalizeItemID_idem, by decide, by decide, by decide⟩

/-- C1: evaluation of `ResolveCombat` at a failing input for the write-back
claim.  With the default Level-1 player (HP 100) against the goblin and an
all-minimum randomness source, the fight is won after three enemy hits; the
event trail shows the working HP ending at 97, yet the persistent
`state.Player.HP` still reads the pre-fight 100: the remaining working HP is
not written back on a win (the write-back sits only on the unreachable
normal-loop exit). -/
theorem C1_win_does_not_write_back_hp :
    (ResolveCombat DefaultState (Enemies "goblin") { ints := [], floats := [] } 30).resultOf =
      some { Outcome := "win", XP := 5, Gold := 3, Loot := ["rusty_dagger", "healing_potion"] } ∧
    ((ResolveCombat DefaultState (Enemies "goblin") { ints := [], floats := [] } 30).stateOf.map
      fun st => st.Player.HP) = some 100 ∧
    (ResolveCombat DefaultState (Enemies "goblin") { ints := [], floats := [] } 30).eventsOf =
      some [Event.EncounterStarted "goblin",
        Event.DamageDealt "player" "goblin" 2 6, Event.DamageDealt "goblin" "player" 1 99,
        Event.DamageDealt "player" "goblin" 2 4, Event.DamageDealt "goblin" "player" 1 98,
        Event.DamageDealt "player" "goblin" 2 2, Event.DamageDealt "goblin" "player" 1 97,
        Event.DamageDealt "player" "goblin" 2 0, Event.EnemyDefeated "goblin" 5 3] := by
  decide

/-- C2: evaluation of `ResolveCombat` at a failing input for the clamping
claim.  `combat.go` contains no clamp of AttackMax up to AttackMin: on a
malformed template the enemy-damage draw is handed the non-positive bound
`AttackMax - AttackMin + 1`, on which `math/rand.Intn` panics — the modelled
run faults instead of drawing over a well-formed range. -/
theorem C2_no_clamp_malformed_template_faults :
    malformedTemplate.AttackMax < malformedTemplate.AttackMin ∧
    (ResolveCombat DefaultState malformedTemplate { ints := [], floats := [] } 10).isFault = true := by
  decide

/-- C6 counterexample: both attack-range minima are strictly positive
(AttackMin = 5 > 0, player minimum damage Level+1 = 2 > 0), yet the combat
run on this malformed template (AttackMax < AttackMin) exits by the modelled
`math/rand.Intn` panic in round one — neither a win nor a lose result. -/
theorem C6_positive_minima_not_sufficient :
    0 < malformedTemplate.AttackMin ∧ 0 < DefaultState.Player.Level + 1 ∧
    DefaultState.Player.HP > 0 ∧
    (ResolveCombat DefaultState malformedTemplate { ints := [], floats := [] } 30).isFault
      = true := by
  decide

/-- C6 (amended): for every player state, enemy template and randomness
source, assuming positive minimum damage (Level ≥ 0, AttackMin > 0) and — as
the counterexample forces — a well-formed attack range (AttackMin ≤
AttackMax), the combat loop of ResolveCombat terminates: any fuel beyond the
template HP yields a normal exit, whose outcome is "win" or "lose"; no other
exit path exists. -/
theorem C6_combat_terminates (st : State) (e : EnemyTemplate) (rng : Rng) (fuel : Nat)
    (hlev : 0 ≤ st.Player.Level) (hmin : 0 < e.AttackMin) (hwf : e.AttackMin ≤ e.AttackMax)
    (hfuel : e.HP.toNat < fuel) :
    ∃ r evs st2 rng2,
      ResolveCombat st e rng fuel = CombatRes.out r evs st2 rng2 ∧
      (r.Outcome = "win" ∨ r.Outcome = "lose") := by
  unfold ResolveCombat
  exact combatLoop_term fuel st e _ _ _ _ rng hlev hmin hwf hfuel

theorem C6_combat_terminates_witness :
    (0 ≤ DefaultState.Player.Level ∧ 0 < (Enemies "goblin").AttackMin ∧
      (Enemies "goblin").AttackMin ≤ (Enemies "goblin").AttackMax ∧
      (Enemies "goblin").HP.toNat < 9) ∧
    ∃ r evs st2 rng2,
      ResolveCombat DefaultState (Enemies "goblin") { ints := [], floats := [] } 9 =
        CombatRes.out r evs st2 rng2 ∧ (r.Outcome = "win" ∨ r.Outcome = "lose") :=
  ⟨⟨by decide, by decide, by decide, by decide⟩,
    C6_combat_terminates DefaultState (Enemies "goblin") { ints := [], floats := [] } 9
      (by decide) (by decide) (by decide) (by decide)⟩

theorem cumPick_mem (ps : List String) :
    ∀ (ws : List Int) (roll cum : Int) (p : String),
      cumPick ps ws roll cum = some p → p ∈ ps := by
  induction ps with
  | nil =>
    intro ws roll cum p h
    simp [cumPick] at h
  | cons p0 ps ih =>
    intro ws roll cum p h
    cases ws with
    | nil =>
      simp [cumPick] at h
    | cons w ws =>
      rw [cumPick] at h
      try dsimp only at h
      split at h
      · cases h
        exact List.mem_cons_self _ _
      · exact List.mem_cons_of_mem _ (ih ws roll (cum + w) p h)

/-- Every enemy id `ChooseEnemy` can return lies in the fixed pool: the
cumulative walk returns a pool member, and the fallback is the pool head. -/
theorem ChooseEnemy_mem {st : State} {x : Int} {rng : Rng} {eid : String} {rng2 : Rng}
    (h : ChooseEnemy st x rng = some (eid, rng2)) :
    eid ∈ ["goblin", "skeleton", "bandit", "wolf", "bear", "orc"] := by
  unfold ChooseEnemy at h
  try dsimp only at h
  repeat' split at h
  all_goals cases h
  all_goals first
    | decide
    | exact cumPick_mem _ _ _ _ _ (by assumption)

/-- Every template in the selection pool has strictly positive HP. -/
theorem Enemies_pool_HP {eid : String}
    (h : eid ∈ ["goblin", "skeleton", "bandit", "wolf", "bear", "orc"]) :
    0 < (Enemies eid).HP := by
  simp only [List.mem_cons, List.not_mem_nil, or_false] at h
  rcases h with rfl | rfl | rfl | rfl | rfl | rfl <;> decide

/-- A non-win combat exit against a live player and a positive-HP template is
a defeat inside the loop: the persistent HP is zeroed and PlayerDefeated was
emitted (the entry-fallthrough exit needs a dead player or a dead enemy). -/
theorem ResolveCombat_lose {st : State} {e : EnemyTemplate} {rng : Rng} {fuel : Nat}
    {r : CombatResult} {evs : List Event} {st2 : State} {rng2 : Rng}
    (h : ResolveCombat st e rng fuel = CombatRes.out r evs st2 rng2)
    (hAlive : 0 < st.Player.HP) (hEnemy : 0 < e.HP) (hnw : r.Outcome ≠ "win") :
    st2 = { st with Player := { st.Player with HP := 0 } } ∧
      Event.PlayerDefeated ∈ evs := by
  rcases combatLoop_out_shape fuel st e st.Player.Level st.Player.HP e.HP
    [Event.EncounterStarted e.ID] rng r evs st2 rng2 h with hc | hc | hc
  · exact absurd hc.1 hnw
  · exact ⟨hc.2.1, hc.2.2⟩
  · exact absurd ⟨by omega, by omega⟩ hc.2.2.1

/-- C10: a combat defeat is not an error at the action interface.  For every
Explore call on a live player whose roll lands in the combat band (31–50)
and whose resolved combat does not end in a win, and likewise for every Hunt
call that passes its SP precondition, the handler returns a normal exit with
error `none`; the defeat is reported only through the PlayerDefeated event in
the combat trail and by the persisted player HP of 0, while the incremented
CommandCount — and, for Hunt, the SP spent up front — are not refunded. -/
theorem C10_defeat_not_error (st : State) (fuel : Nat) (hAlive : 0 < st.Player.HP) :
    (∀ (rng rng1 rngc rng3 : Rng) (r0 : Int) (eid : String) (r : CombatResult)
       (cevs : List Event) (st3 : State),
      rng.intn 100 = some (r0, rng1) → 31 ≤ r0 + 1 → r0 + 1 ≤ 50 →
      ChooseEnemy { st with Meta := { st.Meta with
        CommandCount := st.Meta.CommandCount + 1 } } 0 rng1 = some (eid, rngc) →
      ResolveCombat { st with Meta := { st.Meta with
          CommandCount := st.Meta.CommandCount + 1 } } (Enemies eid) rngc fuel =
        CombatRes.out r cevs st3 rng3 →
      r.Outcome ≠ "win" →
      Event.PlayerDefeated ∈ cevs ∧
      Explore st rng fuel = RunRes.ok
        { st with
          Player := { st.Player with HP := 0 }
          Meta := { st.Meta with CommandCount := st.Meta.CommandCount + 1 } }
        rng3 cevs none) ∧
    (∀ (extraSP : Int) (rng rngc rng3 : Rng) (eid : String) (r : CombatResult)
       (cevs : List Event) (st3 : State),
      0 ≤ extraSP → extraSP ≤ HuntExtraSPMax →
      HuntBaseSP + extraSP ≤ st.Player.SP →
      ChooseEnemy { st with
          Player := { st.Player with SP := st.Player.SP - (HuntBaseSP + extraSP) }
          Meta := { st.Meta with CommandCount := st.Meta.CommandCount + 1 } }
        extraSP rng = some (eid, rngc) →
      ResolveCombat { st with
          Player := { st.Player with SP := st.Player.SP - (HuntBaseSP + extraSP) }
          Meta := { st.Meta with CommandCount := st.Meta.CommandCount + 1 } }
        (Enemies eid) rngc fuel = CombatRes.out r cevs st3 rng3 →
      r.Outcome ≠ "win" →
      Event.PlayerDefeated ∈ cevs ∧
      Hunt st extraSP rng fuel = RunRes.ok
        { st with
          Player := { st.Player with
            SP := st.Player.SP - (HuntBaseSP + extraSP), HP := 0 }
          Meta := { st.Meta with CommandCount := st.Meta.CommandCount + 1 } }
        rng3 ([Event.SPSpent (HuntBaseSP + extraSP)] ++ cevs) none) := by
  constructor
  · intro rng rng1 rngc rng3 r0 eid r cevs st3 hroll h31 h50 hce hcomb hnw
    obtain ⟨hst3, hmem⟩ := ResolveCombat_lose hcomb (by dsimp only; exact hAlive)
      (Enemies_pool_HP (ChooseEnemy_mem hce)) hnw
    refine ⟨hmem, ?_⟩
    unfold Explore
    rw [if_neg (by simp [Player.IsAlive]; omega)]
    dsimp only
    rw [hroll]
    dsimp only
    rw [if_neg (by omega), if_neg (by omega), if_neg (by omega), if_pos h50]
    dsimp only at hce hcomb ⊢
    rw [hce]
    dsimp only
    rw [hcomb]
    dsimp only
    rw [if_neg hnw, hst3]
    dsimp only
    rw [max_self]
  · intro extraSP rng rngc rng3 eid r cevs st3 h0 hmax hsp hce hcomb hnw
    obtain ⟨hst3, hmem⟩ := ResolveCombat_lose hcomb (by dsimp only; exact hAlive)
      (Enemies_pool_HP (ChooseEnemy_mem hce)) hnw
    refine ⟨hmem, ?_⟩
    unfold Hunt
    rw [if_neg (by simp [Player.IsAlive]; omega)]
    dsimp only
    rw [if_neg (by omega)]
    rw [if_neg (by omega)]
    rw [if_neg (by omega)]
    dsimp only at hce hcomb ⊢
    rw [hce]
    dsimp only
    rw [hcomb]
    dsimp only
    rw [if_neg hnw, hst3]
    all_goals try dsimp only
    all_goals rfl


theorem C10_defeat_not_error_witness :
    (0 < loseState.Player.HP ∧
      Rng.intn { ints := [30, 0, 0, 0], floats := [] } 100 =
        some (30, { ints := [0, 0, 0], floats := [] }) ∧
      31 ≤ (30 : Int) + 1 ∧ (30 : Int) + 1 ≤ 50 ∧
      ChooseEnemy { loseState with Meta := { loseState.Meta with
          CommandCount := loseState.Meta.CommandCount + 1 } } 0
        { ints := [0, 0, 0], floats := [] } =
        some ("goblin", { ints := [0, 0], floats := [] }) ∧
      ResolveCombat { loseState with Meta := { loseState.Meta with
          CommandCount := loseState.Meta.CommandCount + 1 } } (Enemies "goblin")
        { ints := [0, 0], floats := [] } 5 =
        CombatRes.out { Outcome := "lose" }
          [Event.EncounterStarted "goblin", Event.DamageDealt "player" "goblin" 2 6,
          Event.DamageDealt "goblin" "player" 1 0, Event.PlayerDefeated]
          { loseState with
            Player := { loseState.Player with HP := 0 }
            Meta := { loseState.Meta with
              CommandCount := loseState.Meta.CommandCount + 1 } }
          { ints := [], floats := [] } ∧
      ({ Outcome := "lose" } : CombatResult).Outcome ≠ "win" ∧
      0 ≤ (0 : Int) ∧ (0 : Int) ≤ HuntExtraSPMax ∧
      HuntBaseSP + 0 ≤ loseState.Player.SP) ∧
    (Event.PlayerDefeated ∈
        [Event.EncounterStarted "goblin", Event.DamageDealt "player" "goblin" 2 6,
          Event.DamageDealt "goblin" "player" 1 0, Event.PlayerDefeated] ∧
      Explore loseState { ints := [30, 0, 0, 0], floats := [] } 5 = RunRes.ok
        { loseState with
          Player := { loseState.Player with HP := 0 }
          Meta := { loseState.Meta with
            CommandCount := loseState.Meta.CommandCount + 1 } }
        { ints := [], floats := [] }
        [Event.EncounterStarted "goblin", Event.DamageDealt "player" "goblin" 2 6,
          Event.DamageDealt "goblin" "player" 1 0, Event.PlayerDefeated] none) ∧
    (Event.PlayerDefeated ∈
        [Event.EncounterStarted "goblin", Event.DamageDealt "player" "goblin" 2 6,
          Event.DamageDealt "goblin" "player" 1 0, Event.PlayerDefeated] ∧
      Hunt loseState 0 { ints := [0, 0, 0], floats := [] } 5 = RunRes.ok
        { loseState with
          Player := { loseState.Player with
            SP := loseState.Player.SP - (HuntBaseSP + 0), HP := 0 }
          Meta := { loseState.Meta with
            CommandCount := loseState.Meta.CommandCount + 1 } }
        { ints := [], floats := [] }
        ([Event.SPSpent (HuntBaseSP + 0)] ++
          [Event.EncounterStarted "goblin", Event.DamageDealt "player" "goblin" 2 6,
          Event.DamageDealt "goblin" "player" 1 0, Event.PlayerDefeated]) none) := by
  refine ⟨⟨by decide, rfl, by decide, by decide, rfl, rfl, by decide, by decide,
    by decide, by decide⟩, ?_, ?_⟩
  · exact (C10_defeat_not_error loseState 5 (by decide)).1
      { ints := [30, 0, 0, 0], floats := [] } { ints := [0, 0, 0], floats := [] }
      { ints := [0, 0], floats := [] } { ints := [], floats := [] } 30 "goblin"
      { Outcome := "lose" }
      [Event.EncounterStarted "goblin", Event.DamageDealt "player" "goblin" 2 6,
          Event.DamageDealt "goblin" "player" 1 0, Event.PlayerDefeated] _
      rfl (by decide) (by decide) rfl rfl (by decide)
  · exact (C10_defeat_not_error loseState 5 (by decide)).2 0
      { ints := [0, 0, 0], floats := [] } { ints := [0, 0], floats := [] }
      { ints := [], floats := [] } "goblin" { Outcome := "lose" }
      [Event.EncounterStarted "goblin", Event.DamageDealt "player" "goblin" 2 6,
          Event.DamageDealt "goblin" "player" 1 0, Event.PlayerDefeated] _
      (by decide) (by decide) (by decide) rfl rfl (by decide)


end Grimoire
